import Mathlib

/-!
Verification of the SirenWeb proxy-configuration generator and link converter.

The development shallowly embeds the JavaScript core of the repository
(`src/web/js/sub.js` and `src/web/js/converter.js`) in Lean.  JavaScript
strings are modelled as `List Char` (`JStr`); the handful of host-platform
primitives the code relies on (`String.prototype.split`, `trim`,
`encodeURIComponent`, `btoa`/`atob`, the WHATWG `URL` parser and
`URLSearchParams`) are modelled explicitly below, faithful to their
behaviour on the inputs the program feeds them; the modelling notes on each
definition record the simplifications made for out-of-range inputs.
-/

/-- JavaScript strings are modelled as lists of Unicode scalar values. -/
abbrev JStr := List Char

/-! ## Generic string primitives (models of JS built-ins) -/

/-- Model of `s.split(d)` for a single-character delimiter `d`:
splits on every occurrence, keeping empty segments, and `[] ↦ [[]]`
(JS: `"".split(d) == [""]`). -/
def splitAllOn (c : Char) : JStr → List JStr
  | [] => [[]]
  | x :: xs =>
    let r := splitAllOn c xs
    if x = c then [] :: r
    else
      match r with
      | [] => [[x]]
      | h :: t => (x :: h) :: t

/-- Split at the first occurrence of `c`: `some (before, after)`, or `none`
when `c` does not occur. -/
def splitFirst (c : Char) : JStr → Option (JStr × JStr)
  | [] => none
  | x :: xs =>
    if x = c then some ([], xs)
    else (splitFirst c xs).map (fun p => (x :: p.1, p.2))

/-- Split at the last occurrence of `c`. -/
def splitLast (c : Char) (l : JStr) : Option (JStr × JStr) :=
  (splitFirst c l.reverse).map (fun p => (p.2.reverse, p.1.reverse))

/-- Whitespace recognised by the model of `String.prototype.trim`. -/
def isJsSpace (c : Char) : Bool :=
  c = ' ' || c = '\t' || c = '\n' || c = '\r' || c = '\x0b' || c = '\x0c'

/-- Model of `s.trim()` (restricted to the ASCII whitespace the inputs use). -/
def trimJS (s : JStr) : JStr :=
  (s.dropWhile isJsSpace).reverse.dropWhile isJsSpace |>.reverse

/-- JS string truthiness-based `a || b` (first operand when non-empty). -/
def jsOrS (a b : JStr) : JStr := if a = [] then b else a

/-- JS `x || b` where `x` is a nullable string (`null`/`undefined` ↦ `none`). -/
def jsOr (a : Option JStr) (b : JStr) : JStr :=
  match a with
  | some v => jsOrS v b
  | none => b

/-- Model of `s.toUpperCase()` (ASCII). -/
def toUpperJS (s : JStr) : JStr := s.map Char.toUpper

/-- Substring test, model of `s.includes(pat)`. -/
def containsSub (s pat : JStr) : Bool :=
  match s with
  | [] => pat = []
  | _ :: rest => pat.isPrefixOf s || containsSub rest pat

/-- Model of `s.replace(pat, rep)` for a non-empty plain-string pattern:
replaces the first occurrence only. -/
def replaceFirst (pat rep : JStr) : JStr → JStr
  | [] => []
  | c :: rest =>
    if pat.isPrefixOf (c :: rest) then rep ++ (c :: rest).drop pat.length
    else c :: replaceFirst pat rep rest

/-! ## Decimal numbers, hex digits -/

/-- Digit/uppercase-hex character table lookup. -/
def digitCharOf (d : Nat) : Char := "0123456789ABCDEF".data.getD d '0'

/-- Lowercase-hex character table lookup. -/
def digitCharLower (d : Nat) : Char := "0123456789abcdef".data.getD d '0'

/-- Fuel-driven digit accumulator (`fuel ≥ n` suffices): prepends the
decimal digits of `n` to `acc`. -/
def natToCharsAux : Nat → Nat → JStr → JStr
  | _, 0, acc => acc
  | 0, _, acc => acc
  | fuel + 1, n + 1, acc =>
    natToCharsAux fuel ((n + 1) / 10) (digitCharOf ((n + 1) % 10) :: acc)

/-- Model of JS number-to-string for the naturals the code handles
(ports, indices). -/
def natToChars (n : Nat) : JStr :=
  if n = 0 then ['0'] else natToCharsAux n n []

/-- Decimal-digit test on code points. -/
def isDigitC (c : Char) : Bool := 48 ≤ c.toNat && c.toNat ≤ 57

/-- Model of `parseInt(s, 10)` on an all-digit string. -/
def parseDigits (cs : JStr) : Nat :=
  cs.foldl (fun a c => 10 * a + (c.toNat - 48)) 0

/-- Hex-digit test. -/
def isHexC (c : Char) : Bool :=
  c.isDigit || ('A' ≤ c && c ≤ 'F') || ('a' ≤ c && c ≤ 'f')

/-- Value of a hex digit. -/
def hexValC (c : Char) : Nat :=
  if c.isDigit then c.toNat - 48
  else if 'A' ≤ c && c ≤ 'F' then c.toNat - 55
  else if 'a' ≤ c && c ≤ 'f' then c.toNat - 87
  else 0

/-! ## UTF-8 and percent-encoding (`encodeURIComponent` and friends) -/

/-- UTF-8 bytes of one scalar value. -/
def utf8EncodeChar (c : Char) : List Nat :=
  let n := c.toNat
  if n < 0x80 then [n]
  else if n < 0x800 then [0xC0 + n / 64, 0x80 + n % 64]
  else if n < 0x10000 then
    [0xE0 + n / 4096, 0x80 + n / 64 % 64, 0x80 + n % 64]
  else
    [0xF0 + n / 262144, 0x80 + n / 4096 % 64, 0x80 + n / 64 % 64, 0x80 + n % 64]

/-- Streaming UTF-8 decoder state step: `some (v, k)` means `k`
continuation bytes are still expected for the partial scalar value `v`. -/
def utf8DecodeSt : Option (Nat × Nat) → List Nat → Option JStr
  | none, [] => some []
  | some _, [] => none
  | none, b :: bs =>
    if b < 0x80 then (utf8DecodeSt none bs).map (fun r => Char.ofNat b :: r)
    else if b < 0xC0 then none
    else if b < 0xE0 then utf8DecodeSt (some (b - 0xC0, 1)) bs
    else if b < 0xF0 then utf8DecodeSt (some (b - 0xE0, 2)) bs
    else if b < 0xF8 then utf8DecodeSt (some (b - 0xF0, 3)) bs
    else none
  | some (v, k), b :: bs =>
    if 0x80 ≤ b && b < 0xC0 then
      if k = 1 then
        (utf8DecodeSt none bs).map (fun r => Char.ofNat (v * 64 + (b - 0x80)) :: r)
      else utf8DecodeSt (some (v * 64 + (b - 0x80), k - 1)) bs
    else none

/-- UTF-8 decoding of a byte list (strict: `none` on malformed input; the
lenient replacement-character behaviour of the platform decoders is never
exercised on the inputs in scope). -/
def utf8Decode (bs : List Nat) : Option JStr := utf8DecodeSt none bs

/-- The characters `encodeURIComponent` leaves unescaped:
`A-Z a-z 0-9 - _ . ! ~ * ' ( )` (stated on code points). -/
def unreservedURI (c : Char) : Bool :=
  (65 ≤ c.toNat && c.toNat ≤ 90) || (97 ≤ c.toNat && c.toNat ≤ 122)
    || (48 ≤ c.toNat && c.toNat ≤ 57) || c.toNat = 45 || c.toNat = 95 || c.toNat = 46
    || c.toNat = 33 || c.toNat = 126 || c.toNat = 42 || c.toNat = 39 || c.toNat = 40
    || c.toNat = 41

/-- The delimiter-free character class of claim C2: letters, digits and
`- . _ ~` — names free of every URI delimiter the link shape uses. -/
def uriPlainChar (c : Char) : Bool :=
  (65 ≤ c.toNat && c.toNat ≤ 90) || (97 ≤ c.toNat && c.toNat ≤ 122)
    || (48 ≤ c.toNat && c.toNat ≤ 57) || c.toNat = 45 || c.toNat = 46 || c.toNat = 95
    || c.toNat = 126

/-- The characters `encodeURIComponent` can emit: an unreserved character,
`%`, or a hex digit. -/
def encOutChar (c : Char) : Bool := unreservedURI c || c = '%' || isHexC c

/-- `%XY` escape of one byte (uppercase hex, as `encodeURIComponent`
produces). -/
def byteEsc (b : Nat) : JStr := ['%', digitCharOf (b / 16), digitCharOf (b % 16)]

/-- Model of `encodeURIComponent`. -/
def encodeURIComponent (s : JStr) : JStr :=
  s.flatMap (fun c =>
    if unreservedURI c then [c] else (utf8EncodeChar c).flatMap byteEsc)

/-- Percent-decoding to bytes.  A well-formed `%XY` yields the byte `XY`;
a malformed escape stays literal (as the WHATWG decoders do); a plain
character contributes its code point (`none` for the non-byte-sized
characters that never reach this code). -/
def percentDecodeBytes : JStr → Option (List Nat)
  | [] => some []
  | '%' :: h :: l :: rest =>
    if isHexC h && isHexC l then
      (percentDecodeBytes rest).map (fun r => (hexValC h * 16 + hexValC l) :: r)
    else
      (percentDecodeBytes (h :: l :: rest)).map (fun r => '%'.toNat :: r)
  | c :: rest =>
    if c.toNat < 256 then (percentDecodeBytes rest).map (fun r => c.toNat :: r)
    else none

/-- `application/x-www-form-urlencoded` value decoding, as
`URLSearchParams` applies it: `+` to space, then percent-decode, then
UTF-8 decode; the (never exercised) malformed case falls back to the raw
string in place of replacement characters. -/
def formDecode (s : JStr) : JStr :=
  match (percentDecodeBytes (s.map (fun c => if c = '+' then ' ' else c))).bind utf8Decode with
  | some r => r
  | none => s

/-- Model of `decodeURIComponent` (no `+` conversion), same fallback. -/
def uriDecode (s : JStr) : JStr :=
  match (percentDecodeBytes s).bind utf8Decode with
  | some r => r
  | none => s

/-! ## Base64 (`btoa` / `atob`) -/

/-- The base64 alphabet. -/
def b64Table : JStr :=
  "ABCDEFGHIJKLMNOPQRSTUVWXYZabcdefghijklmnopqrstuvwxyz0123456789+/".data

/-- Base64 character of a 6-bit value. -/
def b64CharOf (n : Nat) : Char := b64Table.getD n 'A'

/-- Base64 encoding of a byte list, with padding. -/
def b64encodeBytes : List Nat → JStr
  | [] => []
  | [a] => [b64CharOf (a / 4), b64CharOf (a % 4 * 16), '=', '=']
  | [a, b] => [b64CharOf (a / 4), b64CharOf (a % 4 * 16 + b / 16), b64CharOf (b % 16 * 4), '=']
  | a :: b :: c :: rest =>
    b64CharOf (a / 4) :: b64CharOf (a % 4 * 16 + b / 16)
      :: b64CharOf (b % 16 * 4 + c / 64) :: b64CharOf (c % 64) :: b64encodeBytes rest

/-- Model of `btoa`: base64 of the code points.  (Real `btoa` throws on a
code point above 255; the inputs in scope are Latin-1, so the `% 256`
truncation is never exercised.) -/
def btoaJS (s : JStr) : JStr := b64encodeBytes (s.map (fun c => c.toNat % 256))

/-- 6-bit value of a base64 character. -/
def b64valC (c : Char) : Option Nat := b64Table.findIdx? (· == c)

/-- Regroup 6-bit values into bytes (input length `≡ 1 (mod 4)` is
invalid). -/
def b64decodeVals : List Nat → Option (List Nat)
  | [] => some []
  | [_] => none
  | [a, b] => some [a * 4 + b / 16]
  | [a, b, c] => some [a * 4 + b / 16, b % 16 * 16 + c / 4]
  | a :: b :: c :: d :: rest =>
    (b64decodeVals rest).map (fun r =>
      (a * 4 + b / 16) :: (b % 16 * 16 + c / 4) :: (c % 4 * 64 + d) :: r)

/-- Strip up to two `=` padding characters from the end. -/
def stripB64Pad (s : JStr) : JStr :=
  if ['=', '='].isSuffixOf s then s.take (s.length - 2)
  else if ['='].isSuffixOf s then s.take (s.length - 1)
  else s

/-- Model of `atob`: `none` where the real one throws. -/
def atobJS (s : JStr) : Option JStr := do
  let vals ← (stripB64Pad s).mapM b64valC
  let bytes ← b64decodeVals vals
  pure (bytes.map Char.ofNat)

/-! ## JSON values and `JSON.stringify` -/

/-- JSON values; objects are key-value lists in insertion order, as JS
object literals serialize. -/
inductive Json where
  | str : JStr → Json
  | num : Nat → Json
  | jbool : Bool → Json
  | null : Json
  | arr : List Json → Json
  | obj : List (JStr × Json) → Json

/-- String-character escaping of `JSON.stringify`. -/
def jsEscapeChar (c : Char) : JStr :=
  if c = '"' then ['\\', '"']
  else if c = '\\' then ['\\', '\\']
  else if c = '\n' then ['\\', 'n']
  else if c = '\r' then ['\\', 'r']
  else if c = '\t' then ['\\', 't']
  else if c = '\x08' then ['\\', 'b']
  else if c = '\x0c' then ['\\', 'f']
  else if c.toNat < 32 then
    ['\\', 'u', '0', '0', digitCharLower (c.toNat / 16), digitCharLower (c.toNat % 16)]
  else [c]

/-- A JSON string literal. -/
def jsonQuote (s : JStr) : JStr := '"' :: s.flatMap jsEscapeChar ++ ['"']

mutual

/-- Compact `JSON.stringify` (the pretty-printing indent of
`JSON.stringify(x, null, 2)` is abstracted away: it only inserts
whitespace). -/
def jsonStringify : Json → JStr
  | .str s => jsonQuote s
  | .num n => natToChars n
  | .jbool b => if b then "true".data else "false".data
  | .null => "null".data
  | .arr xs => '[' :: jsonStringifyArr xs ++ [']']
  | .obj kvs => '\x7b' :: jsonStringifyObj kvs ++ ['\x7d']

/-- Comma-joined array elements. -/
def jsonStringifyArr : List Json → JStr
  | [] => []
  | [x] => jsonStringify x
  | x :: y :: rest => jsonStringify x ++ ',' :: jsonStringifyArr (y :: rest)

/-- Comma-joined object members. -/
def jsonStringifyObj : List (JStr × Json) → JStr
  | [] => []
  | [(k, v)] => jsonQuote k ++ ':' :: jsonStringify v
  | (k, v) :: p :: rest =>
    jsonQuote k ++ ':' :: jsonStringify v ++ ',' :: jsonStringifyObj (p :: rest)

end

/-! ## The host-masking resolver (`getServerHostSni`, sub.js lines 341-350) -/

/-- The `{server, host, sni}` triple. -/
structure HostTriple where
  server : JStr
  host : JStr
  sni : JStr
deriving DecidableEq

/-- `getServerHostSni(bugType, bug, mainDomain)` from `sub.js`:
a `switch` on `bugType` with cases `'non-wildcard'` and `'wildcard'`,
everything else falling through to the `default` arm. -/
def getServerHostSni (bugType bug mainDomain : JStr) : HostTriple :=
  if bugType = "non-wildcard".data then
    { server := bug, host := mainDomain, sni := mainDomain }
  else if bugType = "wildcard".data then
    { server := bug, host := bug ++ ".".data ++ mainDomain
      sni := bug ++ ".".data ++ mainDomain }
  else
    { server := mainDomain, host := mainDomain, sni := mainDomain }

/-! ## Proxy list ingestion (`processProxyData` / `detectDelimiter`, sub.js) -/

/-- A proxy record, one per kept input line. -/
structure Proxy where
  ip : JStr
  port : JStr
  country : JStr
  provider : JStr
deriving DecidableEq

/-- Model of `text.split(/\r?\n/)`: line split on `\n` or `\r\n`
(a lone `\r` is not a separator). -/
def splitLinesJS : JStr → List JStr
  | [] => [[]]
  | '\r' :: '\n' :: rest => [] :: splitLinesJS rest
  | '\n' :: rest => [] :: splitLinesJS rest
  | c :: rest =>
    match splitLinesJS rest with
    | [] => [[c]]
    | h :: t => (c :: h) :: t

/-- `detectDelimiter(line)` from `sub.js` lines 604-609: first match among
tab, pipe, semicolon; comma otherwise. -/
def detectDelimiter (line : JStr) : Char :=
  if line.contains '\t' then '\t'
  else if line.contains '|' then '|'
  else if line.contains ';' then ';'
  else ','

/-- The per-line mapper inside `processProxyData`: a line with at least two
columns becomes a `Proxy` (third/fourth columns defaulted), anything else
`null`. -/
def proxyOfLine (delimiter : Char) (line : JStr) : Option Proxy :=
  let parts := splitAllOn delimiter line
  if 2 ≤ parts.length then
    some
      { ip := trimJS (parts.getD 0 [])
        port := trimJS (parts.getD 1 [])
        country := if 3 ≤ parts.length then trimJS (parts.getD 2 []) else "Unknown".data
        provider := if 4 ≤ parts.length then trimJS (parts.getD 3 []) else "Unknown Provider".data }
  else none

/-- `processProxyData(text)` from `sub.js` lines 115-137, as a pure
transform: split into lines, drop blank lines, sniff the delimiter on the
first remaining line, map every line and drop the `null`s
(`lines.map(...).filter(Boolean)`).  The DOM/error side effects are
dropped; the empty-input early return yields `[]` here. -/
def processProxyData (text : JStr) : List Proxy :=
  let lines := (splitLinesJS text).filter (fun line => trimJS line ≠ [])
  match lines with
  | [] => []
  | l₀ :: _ => lines.filterMap (proxyOfLine (detectDelimiter l₀))

/-- The ingestion contract exactly as claim C4 words it: a line is kept
only if it splits into at least 2 parts that are non-empty after trimming.
(Everything else as in the code.) -/
def ingestClaimC4 (text : JStr) : List Proxy :=
  let lines := (splitLinesJS text).filter (fun line => trimJS line ≠ [])
  match lines with
  | [] => []
  | l₀ :: _ =>
    lines.filterMap (fun line =>
      let parts := splitAllOn (detectDelimiter l₀) line
      if 2 ≤ (parts.filter (fun p => trimJS p ≠ [])).length then
        proxyOfLine (detectDelimiter l₀) line
      else none)

/-! ## Config synthesis (`generateConfiguration`, sub.js lines 294-332) -/

/-- The user options record (`getFormValues`), restricted to the fields the
generation core reads. -/
structure GenOptions where
  protocol : JStr
  format : JStr
  uuid : JStr
  bugType : JStr
  mainDomain : JStr
  customBug : JStr
  isTls : Bool
deriving DecidableEq

/-- The merged per-link options object `{ ...options, server, host, sni,
path, port, baseName }`, restricted to the fields the encoders destructure. -/
structure LinkOpts where
  uuid : JStr
  isTls : Bool
  server : JStr
  host : JStr
  sni : JStr
  path : JStr
  port : Nat
  baseName : JStr
deriving DecidableEq

/-- One entry pushed onto `configs`. -/
structure ConfigEntry where
  protocol : JStr
  proxy : Proxy
  opts : LinkOpts
deriving DecidableEq

/-- `CONFIG.PATH_TEMPLATE` from `sub.js` line 14. -/
def PATH_TEMPLATE : JStr := "/afrcloud/\x7bip\x7d-\x7bport\x7d".data

/-- The bug list of `generateConfiguration`:
`options.customBug && ['non-wildcard','wildcard'].includes(options.bugType)`
selects the comma-split, trimmed custom list, else `[options.mainDomain]`. -/
def bugsOf (options : GenOptions) : List JStr :=
  if options.customBug ≠ [] ∧
      (options.bugType = "non-wildcard".data ∨ options.bugType = "wildcard".data) then
    (splitAllOn ',' options.customBug).map trimJS
  else [options.mainDomain]

/-- The protocol fan-out: all four for `'mix'`, else the singleton. -/
def protocolsToGenerate (options : GenOptions) : List JStr :=
  if options.protocol = "mix".data then
    ["vmess".data, "vless".data, "trojan".data, "shadowsocks".data]
  else [options.protocol]

/-- The config-building loops of `generateConfiguration` (lines 300-319):
`proxies` outer, `bugs` middle, protocols inner, pushing one entry per
combination. -/
def buildConfigs (proxies : List Proxy) (options : GenOptions) : List ConfigEntry :=
  proxies.flatMap (fun proxy =>
    (bugsOf options).flatMap (fun bug =>
      let t := getServerHostSni options.bugType bug options.mainDomain
      let baseName := "(".data ++ toUpperJS (jsOrS proxy.country "UNK".data) ++ ") ".data
        ++ proxy.provider
      let path := replaceFirst "\x7bport\x7d".data proxy.port
        (replaceFirst "\x7bip\x7d".data proxy.ip PATH_TEMPLATE)
      let port := if options.isTls then 443 else 80
      (protocolsToGenerate options).map (fun proto =>
        { protocol := proto
          proxy := proxy
          opts :=
            { uuid := options.uuid, isTls := options.isTls, server := t.server
              host := t.host, sni := t.sni, path := path, port := port
              baseName := baseName } })))

/-- The bug set exactly as claim C3 words it: `customBug` split on commas
with each entry trimmed iff `bugType` is `'non-wildcard'` or `'wildcard'`
and `customBug` is non-empty, otherwise the singleton `[mainDomain]`. -/
def bugsClaimC3 (options : GenOptions) : List JStr :=
  if (options.bugType = "non-wildcard".data ∨ options.bugType = "wildcard".data)
      ∧ options.customBug ≠ [] then
    (splitAllOn ',' options.customBug).map trimJS
  else [options.mainDomain]

/-! ## Per-entry display name and the three encoders (sub.js lines 357-530) -/

/-- `isTls ? 'TLS' : 'NTLS'`. -/
def tlsStrOf (isTls : Bool) : JStr := if isTls then "TLS".data else "NTLS".data

/-- The display name `[index+1] baseName [PROTO-TLS|NTLS]` (before URI
encoding). -/
def displayName (index : Nat) (protocol : JStr) (o : LinkOpts) : JStr :=
  "[".data ++ natToChars (index + 1) ++ "] ".data ++ o.baseName ++ " [".data
    ++ toUpperJS protocol ++ "-".data ++ tlsStrOf o.isTls ++ "]".data

/-- The vmess JSON object of `generateV2rayLinks` (field insertion order as
in the object literal). -/
def vmessJsonOf (o : LinkOpts) (psName : JStr) : Json :=
  .obj [("v".data, .str "2".data), ("ps".data, .str psName), ("add".data, .str o.server),
        ("port".data, .num o.port), ("id".data, .str o.uuid), ("aid".data, .str "0".data),
        ("net".data, .str "ws".data), ("type".data, .str "none".data),
        ("host".data, .str o.host), ("path".data, .str o.path),
        ("tls".data, .str (if o.isTls then "tls".data else [])),
        ("sni".data, .str o.sni), ("scy".data, .str "zero".data)]

/-- The vless URI of `generateV2rayLinks` (line 372); `name` is the
already-URI-encoded display name. -/
def vlessUri (uuid server : JStr) (port : Nat) (isTls : Bool)
    (host path sni name : JStr) : JStr :=
  "vless://".data ++ uuid ++ "@".data ++ server ++ ":".data ++ natToChars port
    ++ "?encryption=none&security=".data ++ (if isTls then "tls".data else "none".data)
    ++ "&type=ws&host=".data ++ host ++ "&path=".data ++ encodeURIComponent path
    ++ "&sni=".data ++ sni ++ "#".data ++ name

/-- One link of `generateV2rayLinks`: the per-protocol `switch`, with the
`default` arm returning the empty string. -/
def v2rayLinkOf (index : Nat) (c : ConfigEntry) : JStr :=
  let o := c.opts
  let name := encodeURIComponent (displayName index c.protocol o)
  if c.protocol = "vmess".data then
    "vmess://".data ++ btoaJS (jsonStringify (vmessJsonOf o (uriDecode name)))
  else if c.protocol = "vless".data then
    vlessUri o.uuid o.server o.port o.isTls o.host o.path o.sni name
  else if c.protocol = "trojan".data then
    "trojan://".data ++ o.uuid ++ "@".data ++ o.server ++ ":".data ++ natToChars o.port
      ++ "?security=".data ++ (if o.isTls then "tls".data else "none".data)
      ++ "&type=ws&host=".data ++ o.host ++ "&path=".data ++ encodeURIComponent o.path
      ++ "&sni=".data ++ o.sni ++ "#".data ++ name
  else if c.protocol = "shadowsocks".data then
    "ss://".data ++ btoaJS ("none:".data ++ o.uuid) ++ "@".data ++ o.server
      ++ ":".data ++ natToChars o.port
      ++ "?plugin=v2ray-plugin%3Btls%3Bmux%3D0%3Bmode%3Dwebsocket%3Bpath%3D".data
      ++ encodeURIComponent o.path ++ "%3Bhost%3D".data ++ o.host ++ "#".data ++ name
  else []

/-- `generateV2rayLinks`: map with index, drop empty strings
(`filter(Boolean)`), join with newlines. -/
def generateV2rayLinks (configs : List ConfigEntry) : JStr :=
  List.intercalate "\n".data
    ((configs.enum.map (fun ic => v2rayLinkOf ic.1 ic.2)).filter (fun s => s ≠ []))

/-- The Clash YAML header; `now` models the `new Date().toLocaleString`
timestamp (an external clock read). -/
def clashHeader (now : JStr) : JStr :=
  "# Clash Proxy Provider Configuration\n# Generated by AFR-Cloud\n# Date: ".data
    ++ now ++ "\nproxies:\n".data

/-- Rendering of a JS boolean into a template literal. -/
def boolStr (b : Bool) : JStr := if b then "true".data else "false".data

/-- The shared `proxyDetails` YAML block of `generateClashConfig`. -/
def clashProxyDetails (name : JStr) (o : LinkOpts) : JStr :=
  "\n  - name: \"".data ++ name ++ "\"\n    server: ".data ++ o.server
    ++ "\n    port: ".data ++ natToChars o.port ++ "\n    tls: ".data ++ boolStr o.isTls
    ++ "\n    skip-cert-verify: true\n    network: ws\n    ws-opts:\n      path: \"".data
    ++ o.path ++ "\"\n      headers:\n        Host: ".data ++ o.host ++ "\n".data

/-- One Clash YAML list entry: the per-protocol `switch` of
`generateClashConfig`, `default` arm empty. -/
def clashEntryOf (index : Nat) (c : ConfigEntry) : JStr :=
  let o := c.opts
  let name := displayName index c.protocol o
  if c.protocol = "vmess".data then
    clashProxyDetails name o ++ "    type: vmess\n    uuid: ".data ++ o.uuid
      ++ "\n    alterId: 0\n    cipher: zero\n    servername: ".data ++ o.sni
  else if c.protocol = "vless".data then
    clashProxyDetails name o ++ "    type: vless\n    uuid: ".data ++ o.uuid
      ++ "\n    servername: ".data ++ o.sni
  else if c.protocol = "trojan".data then
    clashProxyDetails name o ++ "    type: trojan\n    password: ".data ++ o.uuid
      ++ "\n    sni: ".data ++ o.sni
  else if c.protocol = "shadowsocks".data then
    "\n  - name: \"".data ++ name ++ "\"\n    type: ss\n    server: ".data ++ o.server
      ++ "\n    port: ".data ++ natToChars o.port
      ++ "\n    cipher: none\n    password: ".data ++ o.uuid
      ++ "\n    plugin: v2ray-plugin\n    plugin-opts:\n      mode: websocket\n      tls: ".data
      ++ boolStr o.isTls ++ "\n      skip-cert-verify: true\n      host: ".data ++ o.host
      ++ "\n      path: \"".data ++ o.path ++ "\"\n      mux: false\n".data
  else []

/-- `generateClashConfig`: header plus the per-entry blocks, empties
dropped (`filter(Boolean).join('')`). -/
def generateClashConfig (now : JStr) (configs : List ConfigEntry) : JStr :=
  clashHeader now
    ++ ((configs.enum.map (fun ic => clashEntryOf ic.1 ic.2)).filter (fun s => s ≠ [])).flatten

/-- One Nekobox outbound object, or `null` for an unknown protocol
(the per-protocol `switch` of `generateNekoboxConfig`). -/
def nekoOutboundOf (index : Nat) (c : ConfigEntry) : Option Json :=
  let o := c.opts
  let name := displayName index c.protocol o
  let baseTls : Json :=
    .obj [("enabled".data, .jbool o.isTls), ("insecure".data, .jbool false),
          ("server_name".data, .str o.sni),
          ("utls".data, .obj [("enabled".data, .jbool true),
                              ("fingerprint".data, .str "randomized".data)])]
  let transport : Json :=
    .obj [("type".data, .str "ws".data), ("path".data, .str o.path),
          ("headers".data, .obj [("Host".data, .str o.host)])]
  let base : List (JStr × Json) :=
    [("server".data, .str o.server), ("server_port".data, .num o.port),
     ("tag".data, .str name), ("tls".data, baseTls), ("transport".data, transport)]
  if c.protocol = "vmess".data then
    some (.obj (base ++ [("type".data, .str "vmess".data), ("uuid".data, .str o.uuid),
      ("security".data, .str "zero".data), ("alter_id".data, .num 0)]))
  else if c.protocol = "vless".data then
    some (.obj (base ++ [("type".data, .str "vless".data), ("uuid".data, .str o.uuid),
      ("flow".data, .str [])]))
  else if c.protocol = "trojan".data then
    some (.obj (base ++ [("type".data, .str "trojan".data),
      ("password".data, .str o.uuid)]))
  else if c.protocol = "shadowsocks".data then
    some (.obj [("type".data, .str "shadowsocks".data), ("tag".data, .str name),
      ("server".data, .str o.server), ("server_port".data, .num o.port),
      ("method".data, .str "none".data), ("password".data, .str o.uuid),
      ("plugin".data, .str "v2ray-plugin".data),
      ("plugin_opts".data, .str ("mux=0;path=".data ++ o.path ++ ";host=".data ++ o.host
        ++ ";tls=".data ++ (if o.isTls then "1".data else "0".data)))])
  else none

/-- `configs.map(...).filter(Boolean)` over the outbound builder. -/
def nekoboxOutbounds (configs : List ConfigEntry) : List Json :=
  (configs.enum.map (fun ic => nekoOutboundOf ic.1 ic.2)).filterMap id

/-- JS property access `o.tag` on an outbound object. -/
def jsonTag (j : Json) : Json :=
  match j with
  | .obj kvs => (((kvs.find? (fun kv => kv.1 = "tag".data)).map Prod.snd).getD .null)
  | _ => .null

/-- The full Nekobox JSON document (`nekoboxJson` object literal,
lines 497-527). -/
def nekoboxJson (configs : List ConfigEntry) : Json :=
  let outs := nekoboxOutbounds configs
  .obj
    [("dns".data, .obj [("servers".data, .arr [.obj [("address".data,
        .str "https://family.cloudflare-dns.com/dns-query".data)]])]),
     ("inbounds".data, .arr [.obj [("listen".data, .str "0.0.0.0".data),
        ("listen_port".data, .num 2080), ("tag".data, .str "mixed-in".data),
        ("type".data, .str "mixed".data)]]),
     ("outbounds".data, .arr
       ([.obj [("tag".data, .str "Internet".data), ("type".data, .str "selector".data),
           ("outbounds".data, .arr (outs.map jsonTag ++ [.str "direct".data]))],
         .obj [("tag".data, .str "Best Latency".data), ("type".data, .str "urltest".data),
           ("outbounds".data, .arr (outs.map jsonTag ++ [.str "direct".data])),
           ("url".data, .str "https://detectportal.firefox.com/success.txt".data),
           ("interval".data, .str "1m0s".data)]]
        ++ outs
        ++ [.obj [("tag".data, .str "direct".data), ("type".data, .str "direct".data)],
            .obj [("tag".data, .str "bypass".data), ("type".data, .str "direct".data)],
            .obj [("tag".data, .str "block".data), ("type".data, .str "block".data)],
            .obj [("tag".data, .str "dns-out".data), ("type".data, .str "dns".data)]])),
     ("route".data, .obj [("rules".data, .arr
       [.obj [("outbound".data, .str "dns-out".data), ("port".data, .arr [.num 53])],
        .obj [("inbound".data, .arr [.str "dns-in".data]),
              ("outbound".data, .str "dns-out".data)],
        .obj [("network".data, .arr [.str "udp".data]), ("port".data, .arr [.num 443]),
              ("outbound".data, .str "block".data)],
        .obj [("ip_cidr".data, .arr [.str "224.0.0.0/3".data, .str "ff00::/8".data]),
              ("source_ip_cidr".data, .arr [.str "224.0.0.0/3".data, .str "ff00::/8".data]),
              ("outbound".data, .str "block".data)]])])]

/-- `generateNekoboxConfig`: the document serialized
(`JSON.stringify(nekoboxJson, null, 2)`, whitespace abstracted). -/
def generateNekoboxConfig (configs : List ConfigEntry) : JStr :=
  jsonStringify (nekoboxJson configs)

/-- `generateConfiguration`: build the entries, then dispatch on the
output format (`default` arm shows an error and returns `''`). -/
def generateConfiguration (now : JStr) (proxies : List Proxy) (options : GenOptions) : JStr :=
  let configs := buildConfigs proxies options
  if options.format = "v2ray".data then generateV2rayLinks configs
  else if options.format = "clash".data then generateClashConfig now configs
  else if options.format = "nekobox".data then generateNekoboxConfig configs
  else []

/-! ## WHATWG `URL` model (converter.js parses links with `new URL`)

The browser's URL parser is external platform code; it is modelled here
for the link shapes the converter feeds it: a non-special scheme followed
by `://`, an authority of the form `userinfo@host:port`, then optional
`?query` and `#fragment`.  Out of scope (and marked by `none` or by
simplification): IPv6 bracket hosts, percent-re-encoding of stored
components, and host punycoding. -/

structure URLModel where
  scheme : JStr
  username : JStr
  hostname : JStr
  port : Option Nat
  query : JStr
  hash : JStr
deriving DecidableEq

/-- Parse a URL string; `none` where `new URL` throws (no scheme
separator, empty host, invalid or oversized port). -/
def parseURL (link : JStr) : Option URLModel :=
  match splitFirst ':' link with
  | none => none
  | some (scheme, rest) =>
    if "//".data.isPrefixOf rest then
      let body := rest.drop 2
      let hashSplit :=
        match splitFirst '#' body with
        | some (a, f) => (a, '#' :: f)
        | none => (body, [])
      let querySplit :=
        match splitFirst '?' hashSplit.1 with
        | some (a, q) => (a, q)
        | none => (hashSplit.1, [])
      let authority :=
        match splitFirst '/' querySplit.1 with
        | some (a, _) => a
        | none => querySplit.1
      let userSplit :=
        match splitLast '@' authority with
        | some (u, hp) => (u, hp)
        | none => ([], authority)
      let username :=
        match splitFirst ':' userSplit.1 with
        | some (u, _) => u
        | none => userSplit.1
      let hostPort : Option (JStr × Option Nat) :=
        match splitLast ':' userSplit.2 with
        | some (h, p) =>
          if p = [] then some (h, none)
          else if p.all isDigitC && parseDigits p < 65536 then
            some (h, some (parseDigits p))
          else none
        | none => some (userSplit.2, none)
      match hostPort with
      | none => none
      | some (hostname, port) =>
        if hostname = [] then none
        else
          some { scheme := scheme, username := username, hostname := hostname
                 port := port, query := querySplit.2, hash := hashSplit.2 }
    else none

/-- The key-value pairs of `URLSearchParams`: split the query on `&`,
skip empty segments, split each segment at its first `=` (a segment
without `=` is a key with empty value). -/
def queryPairs (q : JStr) : List (JStr × JStr) :=
  ((splitAllOn '&' q).filter (fun seg => seg ≠ [])).map (fun seg =>
    match splitFirst '=' seg with
    | some (k, v) => (k, v)
    | none => (seg, []))

/-- `url.searchParams.get(key)`: first pair whose decoded key matches,
value form-decoded; `null` (`none`) when absent. -/
def searchGet (url : URLModel) (key : JStr) : Option JStr :=
  ((queryPairs url.query).find? (fun p => formDecode p.1 == key)).map
    (fun p => formDecode p.2)

/-! ## Parsed links (converter.js lines 302-358) and the custom-server
override -/

/-- The canonical parsed-link record: the union of the fields the four
parsers produce.  `port` is `none` where JS holds `NaN`
(`parseInt("")`); `password` is `none` where JS holds `undefined`;
`tls = false` stands for both JS `false` and the falsy `undefined`. -/
structure ParsedLink where
  protoType : JStr
  name : JStr
  server : JStr
  port : Option Nat
  uuid : JStr := []
  password : Option JStr := none
  cipher : JStr := []
  alterId : Nat := 0
  tls : Bool := false
  network : JStr := []
  wsPath : JStr := []
  wsHost : JStr := []
  sni : JStr := []
deriving DecidableEq

/-- `parseVlessLink` (converter.js lines 322-331). -/
def parseVlessLink (link : JStr) : Option ParsedLink :=
  (parseURL link).map (fun url =>
    { protoType := "vless".data
      name := jsOrS ((uriDecode url.hash).drop 1) "VLESS".data
      server := url.hostname
      port := url.port
      uuid := url.username
      tls := searchGet url "security".data == some "tls".data
      network := jsOr (searchGet url "type".data) "tcp".data
      wsPath := jsOr (searchGet url "path".data) "/".data
      wsHost := jsOr (searchGet url "host".data) []
      sni := jsOr (searchGet url "sni".data)
        (jsOr (searchGet url "host".data) url.hostname) })

/-- `parseTrojanLink` (converter.js lines 333-342); note the literal
translation of `url.searchParams.get("security") === "tls" || true`. -/
def parseTrojanLink (link : JStr) : Option ParsedLink :=
  (parseURL link).map (fun url =>
    { protoType := "trojan".data
      name := jsOrS ((uriDecode url.hash).drop 1) "Trojan".data
      server := url.hostname
      port := url.port
      password := some url.username
      tls := (searchGet url "security".data == some "tls".data) || true
      network := jsOr (searchGet url "type".data) "tcp".data
      wsPath := jsOr (searchGet url "path".data) "/".data
      wsHost := jsOr (searchGet url "host".data) []
      sni := jsOr (searchGet url "sni".data)
        (jsOr (searchGet url "host".data) url.hostname) })

/-- `parseShadowsocksLink` (converter.js lines 344-358): base64-decode the
userinfo, split it on every `:` and destructure the first two parts into
`cipher` and `password` (`const [cipher, password] = userInfo.split(":")`).
`none` where `atob` throws. -/
def parseShadowsocksLink (link : JStr) : Option ParsedLink :=
  (parseURL link).bind (fun url =>
    (atobJS url.username).map (fun userInfo =>
      let parts := splitAllOn ':' userInfo
      { protoType := "ss".data
        name := jsOrS ((uriDecode url.hash).drop 1) "Shadowsocks".data
        server := url.hostname
        port := url.port
        cipher := parts.headD []
        password := parts[1]?
        tls :=
          match searchGet url "plugin".data with
          | some p => containsSub p "tls".data
          | none => false
        network :=
          if (match searchGet url "plugin".data with
              | some p => containsSub p "websocket".data
              | none => false) then "ws".data else "tcp".data
        wsPath := jsOr (searchGet url "path".data) "/".data
        wsHost := jsOr (searchGet url "host".data) []
        sni := jsOr (searchGet url "sni".data)
          (jsOr (searchGet url "host".data) url.hostname) }))

/-- `applyCustomServer(link, customServer, isWildcard)` (converter.js
lines 127-140): read `originalHost = newLink.sni || newLink.server`
before overwriting `server`; under wildcard rewrite `sni` and — only when
truthy — `wsHost` to `customServer.originalHost`. -/
def applyCustomServer (link : ParsedLink) (customServer : JStr) (isWildcard : Bool) :
    ParsedLink :=
  let originalHost := jsOrS link.sni link.server
  { link with
    server := customServer
    sni :=
      if isWildcard then customServer ++ ".".data ++ originalHost
      else link.sni
    wsHost :=
      if isWildcard then
        if link.wsHost ≠ [] then customServer ++ ".".data ++ originalHost
        else link.wsHost
      else link.wsHost }

/-- The ingestion behaviour of claim C4 amended to what the code checks:
a line is kept iff it splits into at least 2 parts (empty or not); the
first two columns give ip/port (trimmed), a present third/fourth column
gives country/provider (trimmed), a missing one defaults, and any column
past the fourth is ignored (only the first four are ever inspected). -/
def ingestAmendedC4 (text : JStr) : List Proxy :=
  let lines := (splitLinesJS text).filter (fun line => trimJS line ≠ [])
  match lines with
  | [] => []
  | l₀ :: _ =>
    lines.filterMap (fun line =>
      match splitAllOn (detectDelimiter l₀) line with
      | a :: b :: rest =>
        some
          { ip := trimJS a
            port := trimJS b
            country := match rest with | [] => "Unknown".data | c :: _ => trimJS c
            provider :=
              match rest with
              | _ :: p :: _ => trimJS p
              | _ => "Unknown Provider".data }
      | _ => none)

/-- Sample inputs used by the C9 witness. -/
def sampleProxy9 : Proxy :=
  { ip := "1".data, port := "2".data, country := "SG".data, provider := "Pr".data }

/-- Sample options used by the C9 witness. -/
def sampleOptions9 : GenOptions :=
  { protocol := "vless".data, format := "v2ray".data, uuid := "u".data
    bugType := "default".data, mainDomain := "m".data, customBug := [], isTls := true }

/-- The single entry `buildConfigs [sampleProxy9] sampleOptions9` produces. -/
def sampleEntry9 : ConfigEntry :=
  { protocol := "vless".data
    proxy := sampleProxy9
    opts :=
      { uuid := "u".data, isTls := true, server := "m".data, host := "m".data
        sni := "m".data, path := "/afrcloud/1-2".data, port := 443
        baseName := "(SG) Pr".data } }

/-- The four protocol tags the encoders recognise. -/
def knownProto (p : JStr) : Bool :=
  p = "vmess".data || p = "vless".data || p = "trojan".data || p = "shadowsocks".data

/-- Parsed link with an empty `sni`, used by the C8 counterexample
(reachable, e.g., from a vmess blob with empty `add`/`host`/`sni`). -/
def emptySniLink8 : ParsedLink :=
  { protoType := "vless".data, name := "n".data, server := "srv".data
    port := some 443, uuid := "u".data, tls := true, network := "ws".data
    wsPath := "/".data, wsHost := "w".data, sni := [] }

/-- Parsed link with a non-empty `sni`, used by the C8 witness. -/
def sampleLink8 : ParsedLink :=
  { protoType := "vless".data, name := "n".data, server := "srv".data
    port := some 443, uuid := "u".data, tls := true, network := "ws".data
    wsPath := "/".data, wsHost := "w".data, sni := "orig".data }

/-- The concrete shadowsocks URI of the C7 counterexample and witness:
userinfo is base64 of `none:p:qr`, i.e. cipher `none` and a password
`p:qr` that itself contains a colon. -/
def ssLinkC7 : JStr :=
  "ss://".data ++ b64encodeBytes ("none:p:qr".data.map Char.toNat)
    ++ "@h:80?plugin=tls-websocket".data

/-- The query string a generated vless link carries (the part of
`vlessUri` between `?` and `#`). -/
def vlessQuery (sec host encPath sni : JStr) : JStr :=
  "encryption=none&security=".data ++ sec ++ "&type=ws&host=".data ++ host
    ++ "&path=".data ++ encPath ++ "&sni=".data ++ sni

/-! ## Theorems for claims C1 and C10 -/

/-- C1: the host-masking resolver's case analysis.  For `'default'` the
result is `{mainDomain, mainDomain, mainDomain}` for every bug value; for
`'non-wildcard'` it is `{bugValue, mainDomain, mainDomain}`; for
`'wildcard'` it is `{bugValue, bugValue.mainDomain, bugValue.mainDomain}`;
in particular `resolveHostMask('default', X, 'example.com')` is the
constant triple for every `X`, and
`resolveHostMask('wildcard','bug.io','example.com')` is
`{bug.io, bug.io.example.com, bug.io.example.com}`. -/
theorem getServerHostSni_spec :
    (∀ X mainDomain : JStr,
      getServerHostSni "default".data X mainDomain =
        { server := mainDomain, host := mainDomain, sni := mainDomain }) ∧
    (∀ bug mainDomain : JStr,
      getServerHostSni "non-wildcard".data bug mainDomain =
        { server := bug, host := mainDomain, sni := mainDomain }) ∧
    (∀ bug mainDomain : JStr,
      getServerHostSni "wildcard".data bug mainDomain =
        { server := bug, host := bug ++ ".".data ++ mainDomain
          sni := bug ++ ".".data ++ mainDomain }) ∧
    (∀ X : JStr,
      getServerHostSni "default".data X "example.com".data =
        { server := "example.com".data, host := "example.com".data
          sni := "example.com".data }) ∧
    getServerHostSni "wildcard".data "bug.io".data "example.com".data =
      { server := "bug.io".data, host := "bug.io.example.com".data
        sni := "bug.io.example.com".data } := by
  refine ⟨fun X m => by simp [getServerHostSni], fun b m => by simp [getServerHostSni],
    fun b m => by simp [getServerHostSni], fun X => by simp [getServerHostSni], by decide⟩

/-- C10: totality of the resolver over its bug-type argument — any tag other
than `'non-wildcard'` and `'wildcard'` (not only `'default'`; also the empty
string or garbage) silently degrades to the no-mask triple
`{mainDomain, mainDomain, mainDomain}`, ignoring the bug value. -/
theorem getServerHostSni_total_default (bugType bug mainDomain : JStr)
    (h₁ : bugType ≠ "non-wildcard".data) (h₂ : bugType ≠ "wildcard".data) :
    getServerHostSni bugType bug mainDomain =
      { server := mainDomain, host := mainDomain, sni := mainDomain } := by
  simp only [getServerHostSni]
  rw [if_neg h₁, if_neg h₂]

/-- Witness for C10 at the unrecognized tag `"garbage"` and at `""`. -/
theorem getServerHostSni_total_default_witness :
    getServerHostSni "garbage".data "b.io".data "m.com".data =
      { server := "m.com".data, host := "m.com".data, sni := "m.com".data } ∧
    getServerHostSni "".data "b.io".data "m.com".data =
      { server := "m.com".data, host := "m.com".data, sni := "m.com".data } :=
  ⟨getServerHostSni_total_default _ _ _ (by decide) (by decide),
   getServerHostSni_total_default _ _ _ (by decide) (by decide)⟩

/-! ## Theorems for claim C4 (ingestion) -/

/-- C4 counterexample: on the input line `",x"` the code keeps the line
(it splits into the two parts `""` and `"x"`), although only one part is
non-empty after trimming — the claim's "at least 2 non-empty parts"
condition would drop it. -/
theorem processProxyData_counterexample_C4 :
    processProxyData ",x".data =
      [{ ip := [], port := "x".data, country := "Unknown".data
         provider := "Unknown Provider".data }] ∧
    ingestClaimC4 ",x".data = [] ∧
    processProxyData ",x".data ≠ ingestClaimC4 ",x".data := by
  refine ⟨by decide, by decide, by decide⟩

/-- Pointwise form of the amended per-line contract. -/
theorem proxyOfLine_eq_amended (d : Char) (line : JStr) :
    proxyOfLine d line =
      match splitAllOn d line with
      | a :: b :: rest =>
        some
          { ip := trimJS a
            port := trimJS b
            country := match rest with | [] => "Unknown".data | c :: _ => trimJS c
            provider :=
              match rest with
              | _ :: p :: _ => trimJS p
              | _ => "Unknown Provider".data }
      | _ => none := by
  unfold proxyOfLine
  rcases h : splitAllOn d line with _ | ⟨a, _ | ⟨b, _ | ⟨c, _ | ⟨p, more⟩⟩⟩⟩ <;>
    simp [h]

/-- C4 (amended): ingestion splits on `\n`/`\r\n`, drops blank lines,
sniffs the delimiter once on the first non-blank line (tab, then pipe,
then semicolon, else comma) and applies it to every line; one `Proxy` per
line with at least 2 columns, in original order; columns past the fourth
are ignored and a missing third/fourth column defaults to
`"Unknown"`/`"Unknown Provider"`. -/
theorem processProxyData_amended_C4 (text : JStr) :
    processProxyData text = ingestAmendedC4 text := by
  unfold processProxyData ingestAmendedC4
  rcases h : (splitLinesJS text).filter (fun line => trimJS line ≠ []) with _ | ⟨l₀, rest⟩
  · rfl
  · exact List.filterMap_congr (fun line _ => proxyOfLine_eq_amended _ line)

/-! ## Theorems for claims C3 and C9 (config synthesis) -/

/-- Length of a `flatMap` whose pieces have constant length. -/
theorem length_flatMap_const {α β : Type} (l : List α) (f : α → List β) (k : Nat)
    (h : ∀ a ∈ l, (f a).length = k) : (l.flatMap f).length = l.length * k := by
  induction l with
  | nil => simp
  | cons a t ih =>
    simp only [List.flatMap_cons, List.length_append, List.length_cons,
      h a (by simp)]
    rw [ih (fun x hx => h x (by simp [hx]))]
    ring

/-- C3: the bug set is `customBug` comma-split and trimmed iff `bugType`
is `'non-wildcard'` or `'wildcard'` and `customBug` is non-empty, else
`[mainDomain]`; with `B` bugs the synthesizer emits exactly
`|P| × B × 4` entries for `protocol = 'mix'` and `|P| × B × 1` for a
single named protocol. -/
theorem buildConfigs_crossProduct_C3 (proxies : List Proxy) (options : GenOptions) :
    bugsOf options = bugsClaimC3 options ∧
    (options.protocol = "mix".data →
      (buildConfigs proxies options).length =
        proxies.length * (bugsClaimC3 options).length * 4) ∧
    (options.protocol ≠ "mix".data →
      (buildConfigs proxies options).length =
        proxies.length * (bugsClaimC3 options).length * 1) := by
  have hb : bugsOf options = bugsClaimC3 options := by
    unfold bugsOf bugsClaimC3
    by_cases h1 : options.customBug = [] <;>
      by_cases h2 : options.bugType = "non-wildcard".data ∨
        options.bugType = "wildcard".data <;>
      simp [h1, h2]
  have hlen : ∀ k, (protocolsToGenerate options).length = k →
      (buildConfigs proxies options).length =
        proxies.length * (bugsOf options).length * k := by
    intro k hk
    unfold buildConfigs
    rw [length_flatMap_const _ _ ((bugsOf options).length * k), Nat.mul_assoc]
    intro proxy _
    rw [length_flatMap_const _ _ k]
    intro bug _
    simpa using hk
  refine ⟨hb, fun hmix => ?_, fun hother => ?_⟩
  · rw [← hb]
    exact hlen 4 (by simp [protocolsToGenerate, hmix])
  · rw [← hb]
    exact hlen 1 (by simp [protocolsToGenerate, hother])

/-- Witness for C3: two proxies, bug list `"a, b"` under `'wildcard'` with
`'mix'` gives 16 entries; the same proxies with a single protocol and the
default bug type give 2 entries. -/
theorem buildConfigs_crossProduct_C3_witness :
    (buildConfigs [sampleProxy9, sampleProxy9]
        { protocol := "mix".data, format := "v2ray".data, uuid := "u".data
          bugType := "wildcard".data, mainDomain := "m".data
          customBug := "a, b".data, isTls := true }).length = 16 ∧
    (buildConfigs [sampleProxy9, sampleProxy9] sampleOptions9).length = 2 := by
  constructor
  · rw [(buildConfigs_crossProduct_C3 [sampleProxy9, sampleProxy9] _).2.1 rfl]
    decide
  · rw [(buildConfigs_crossProduct_C3 [sampleProxy9, sampleProxy9] _).2.2 (by decide)]
    decide

/-- `replaceFirst` leaves a head character alone when the (non-empty)
pattern starts differently. -/
theorem replaceFirst_cons_ne (p₀ : Char) (pr rep : JStr) (c : Char) (t : JStr)
    (h : p₀ ≠ c) :
    replaceFirst (p₀ :: pr) rep (c :: t) = c :: replaceFirst (p₀ :: pr) rep t := by
  simp [replaceFirst, List.isPrefixOf, h]

/-- C9: every entry the synthesizer produces has `port = 443` when
`isTls` and `port = 80` otherwise, and a path that starts with `'/'`
(the path template with `{ip}`/`{port}` substituted). -/
theorem buildConfigs_entry_invariants_C9 (proxies : List Proxy) (options : GenOptions)
    (e : ConfigEntry) (he : e ∈ buildConfigs proxies options) :
    e.opts.port = (if options.isTls then 443 else 80) ∧
    e.opts.path.head? = some '/' := by
  unfold buildConfigs at he
  simp only [List.mem_flatMap, List.mem_map] at he
  obtain ⟨proxy, _, bug, _, proto, _, rfl⟩ := he
  refine ⟨rfl, ?_⟩
  have h1 : replaceFirst "\x7bip\x7d".data proxy.ip PATH_TEMPLATE =
      '/' :: replaceFirst "\x7bip\x7d".data proxy.ip
        "afrcloud/\x7bip\x7d-\x7bport\x7d".data := by
    exact replaceFirst_cons_ne _ _ _ _ _ (by decide)
  simp only [h1]
  rw [replaceFirst_cons_ne _ _ _ _ _ (by decide)]
  rfl

/-- Witness for C9: the single entry generated from `sampleProxy9` under
`sampleOptions9` has port 443 and a path starting with `'/'`. -/
theorem buildConfigs_entry_invariants_C9_witness :
    sampleEntry9.opts.port = (if sampleOptions9.isTls then 443 else 80) ∧
    sampleEntry9.opts.path.head? = some '/' :=
  buildConfigs_entry_invariants_C9 [sampleProxy9] sampleOptions9 sampleEntry9 (by decide)

/-! ## Splitting lemmas shared by the parser proofs -/

/-- `splitFirst` at a marked occurrence with no earlier one. -/
theorem splitFirst_append_cons (c : Char) (xs ys : JStr) (h : c ∉ xs) :
    splitFirst c (xs ++ c :: ys) = some (xs, ys) := by
  induction xs with
  | nil => simp [splitFirst]
  | cons a t ih =>
    have ha : ¬a = c := fun hac => h (hac ▸ List.mem_cons_self a t)
    simp [splitFirst, ha, ih (fun hm => h (List.mem_cons_of_mem a hm))]

/-- `splitFirst` misses when the character does not occur. -/
theorem splitFirst_eq_none (c : Char) (xs : JStr) (h : c ∉ xs) :
    splitFirst c xs = none := by
  induction xs with
  | nil => rfl
  | cons a t ih =>
    have ha : ¬a = c := fun hac => h (hac ▸ List.mem_cons_self a t)
    simp [splitFirst, ha, ih (fun hm => h (List.mem_cons_of_mem a hm))]

/-- `splitAllOn` at a marked occurrence with no earlier one. -/
theorem splitAllOn_append_cons (c : Char) (xs ys : JStr) (h : c ∉ xs) :
    splitAllOn c (xs ++ c :: ys) = xs :: splitAllOn c ys := by
  induction xs with
  | nil => simp [splitAllOn]
  | cons a t ih =>
    have ha : ¬a = c := fun hac => h (hac ▸ List.mem_cons_self a t)
    have ih' := ih (fun hm => h (List.mem_cons_of_mem a hm))
    simp only [List.cons_append, splitAllOn, ha, if_false, List.append_eq]
    rw [ih']

/-- `splitAllOn` without any occurrence. -/
theorem splitAllOn_no_occ (c : Char) (xs : JStr) (h : c ∉ xs) :
    splitAllOn c xs = [xs] := by
  induction xs with
  | nil => rfl
  | cons a t ih =>
    have ha : ¬a = c := fun hac => h (hac ▸ List.mem_cons_self a t)
    have ih' := ih (fun hm => h (List.mem_cons_of_mem a hm))
    simp only [splitAllOn, ha, if_false]
    rw [ih']

/-- `splitAllOn` in terms of the first split. -/
theorem splitAllOn_eq_splitFirst (c : Char) (l : JStr) :
    splitAllOn c l =
      match splitFirst c l with
      | some (a, b) => a :: splitAllOn c b
      | none => [l] := by
  induction l with
  | nil => rfl
  | cons x xs ih =>
    by_cases hx : x = c
    · subst hx; simp [splitAllOn, splitFirst]
    · rcases hf : splitFirst c xs with _ | ⟨a, b⟩
      · rw [hf] at ih
        simp [splitAllOn, splitFirst, hx, hf, ih]
      · rw [hf] at ih
        simp [splitAllOn, splitFirst, hx, hf, ih]

/-- `splitLast` at a marked occurrence with no later one. -/
theorem splitLast_append_cons (c : Char) (xs ys : JStr) (h : c ∉ ys) :
    splitLast c (xs ++ c :: ys) = some (xs, ys) := by
  unfold splitLast
  have hrev : (xs ++ c :: ys).reverse = ys.reverse ++ c :: xs.reverse := by
    simp
  rw [hrev, splitFirst_append_cons c _ _ (by simpa using h)]
  simp

/-- `splitLast` misses when the character does not occur. -/
theorem splitLast_eq_none (c : Char) (l : JStr) (h : c ∉ l) :
    splitLast c l = none := by
  unfold splitLast
  rw [splitFirst_eq_none c _ (by simpa using h)]
  rfl

/-! ## Theorems for claim C8 (custom-server override) -/

/-- C8 counterexample: on a parsed link whose `sni` is empty the wildcard
rewrite uses the server as the original host (`newLink.sni ||
newLink.server`), not `customServer + '.' + originalSni` as claimed. -/
theorem applyCustomServer_counterexample_C8 :
    (applyCustomServer emptySniLink8 "cs".data true).sni = "cs.srv".data ∧
    (applyCustomServer emptySniLink8 "cs".data true).sni ≠
      "cs".data ++ ".".data ++ emptySniLink8.sni := by
  exact ⟨by decide, by decide⟩

/-- C8 (amended): `applyCustomServer` replaces `server` unconditionally;
under wildcard it rewrites `sni` — and `wsHost` when non-empty — to
`customServer + '.' + originalHost` where `originalHost` is the original
`sni` when non-empty and otherwise the original `server`; under
non-wildcard, and for every other field always, nothing else changes. -/
theorem applyCustomServer_amended_C8 (link : ParsedLink) (cs : JStr) (w : Bool) :
    (applyCustomServer link cs w).server = cs ∧
    (w = true →
      (applyCustomServer link cs w).sni =
        cs ++ ".".data ++ (if link.sni ≠ [] then link.sni else link.server) ∧
      (link.wsHost ≠ [] →
        (applyCustomServer link cs w).wsHost =
          cs ++ ".".data ++ (if link.sni ≠ [] then link.sni else link.server)) ∧
      (link.wsHost = [] → (applyCustomServer link cs w).wsHost = link.wsHost)) ∧
    (w = false →
      (applyCustomServer link cs w).sni = link.sni ∧
      (applyCustomServer link cs w).wsHost = link.wsHost) ∧
    ((applyCustomServer link cs w).protoType = link.protoType ∧
     (applyCustomServer link cs w).name = link.name ∧
     (applyCustomServer link cs w).port = link.port ∧
     (applyCustomServer link cs w).uuid = link.uuid ∧
     (applyCustomServer link cs w).password = link.password ∧
     (applyCustomServer link cs w).cipher = link.cipher ∧
     (applyCustomServer link cs w).alterId = link.alterId ∧
     (applyCustomServer link cs w).tls = link.tls ∧
     (applyCustomServer link cs w).network = link.network ∧
     (applyCustomServer link cs w).wsPath = link.wsPath) := by
  unfold applyCustomServer jsOrS
  cases w <;> by_cases hs : link.sni = [] <;> by_cases hw : link.wsHost = [] <;>
    simp_all

/-- Witness for C8 at concrete links, both wildcard and not. -/
theorem applyCustomServer_amended_C8_witness :
    (applyCustomServer sampleLink8 "cs".data true).sni = "cs.orig".data ∧
    (applyCustomServer sampleLink8 "cs".data true).wsHost = "cs.orig".data ∧
    (applyCustomServer sampleLink8 "cs".data false).sni = sampleLink8.sni ∧
    (applyCustomServer emptySniLink8 "cs".data true).sni = "cs.srv".data := by
  refine ⟨?_, ?_, ?_, ?_⟩
  · rw [((applyCustomServer_amended_C8 sampleLink8 "cs".data true).2.1 rfl).1]
    decide
  · rw [((applyCustomServer_amended_C8 sampleLink8 "cs".data true).2.1 rfl).2.1 (by decide)]
    decide
  · exact ((applyCustomServer_amended_C8 sampleLink8 "cs".data false).2.2.1 rfl).1
  · rw [((applyCustomServer_amended_C8 emptySniLink8 "cs".data true).2.1 rfl).1]
    decide

/-! ## Theorems for claim C6 (TLS defaults of the trojan/vless parsers) -/

/-- C6: for every trojan URI `parseTrojanLink` reports `tls = true` — in
particular when the `security` parameter is absent or differs from
`"tls"` — because of `get("security") === "tls" || true`; while
`parseVlessLink` reports `tls = true` exactly when the `security`
parameter equals `"tls"` (so `false` when it is absent or different, and
both parsers give `true` on `security=tls`). -/
theorem parse_tls_defaults_C6 :
    (∀ link p, parseTrojanLink link = some p → p.tls = true) ∧
    (∀ link url p, parseURL link = some url → parseVlessLink link = some p →
      (p.tls = true ↔ searchGet url "security".data = some "tls".data)) := by
  constructor
  · intro link p hp
    unfold parseTrojanLink at hp
    rcases h : parseURL link with _ | url
    · rw [h] at hp; exact absurd hp (by simp)
    · rw [h, Option.map_some'] at hp
      have := Option.some.inj hp
      subst this
      simp
  · intro link url p hu hp
    unfold parseVlessLink at hp
    rw [hu, Option.map_some'] at hp
    have := Option.some.inj hp
    subst this
    simp

/-- Witness for C6: a trojan link without `security` parses with
`tls = true`; a vless link without `security` parses with `tls = false`;
a vless link with `security=tls` parses with `tls = true`. -/
theorem parse_tls_defaults_C6_witness :
    (parseTrojanLink "trojan://pw@h:443?type=ws".data).map ParsedLink.tls = some true ∧
    (parseVlessLink "vless://u@h:443?type=ws".data).map ParsedLink.tls = some false ∧
    (parseVlessLink "vless://u@h:443?security=tls".data).map ParsedLink.tls = some true := by
  refine ⟨?_, ?_, ?_⟩
  · obtain ⟨p, hp⟩ : ∃ p, parseTrojanLink "trojan://pw@h:443?type=ws".data = some p :=
      ⟨_, rfl⟩
    rw [hp, Option.map_some']
    exact congrArg some (parse_tls_defaults_C6.1 _ p hp)
  · obtain ⟨p, hp⟩ : ∃ p, parseVlessLink "vless://u@h:443?type=ws".data = some p :=
      ⟨_, rfl⟩
    have hu : parseURL "vless://u@h:443?type=ws".data =
        some { scheme := "vless".data, username := "u".data, hostname := "h".data
               port := some 443, query := "type=ws".data, hash := [] } := by decide
    rw [hp, Option.map_some']
    have hiff := parse_tls_defaults_C6.2 _ _ p hu hp
    have hf : p.tls = false := by
      cases htls : p.tls
      · rfl
      · exact absurd (hiff.mp htls) (by decide)
    rw [hf]
  · obtain ⟨p, hp⟩ : ∃ p, parseVlessLink "vless://u@h:443?security=tls".data = some p :=
      ⟨_, rfl⟩
    have hu : parseURL "vless://u@h:443?security=tls".data =
        some { scheme := "vless".data, username := "u".data, hostname := "h".data
               port := some 443, query := "security=tls".data, hash := [] } := by decide
    rw [hp, Option.map_some']
    exact congrArg some ((parse_tls_defaults_C6.2 _ _ p hu hp).mpr (by decide))

/-! ## Theorems for claim C7 (shadowsocks parsing) -/

/-- C7 counterexample: the userinfo of `ssLinkC7` is
`base64("none" ++ ":" ++ "p:qr")`, i.e. cipher `none` and password
`p:qr`, but the parser destructures `userInfo.split(":")` and returns
only `p` as the password — not the claimed split at the first colon. -/
theorem parseShadowsocksLink_counterexample_C7 :
    atobJS (b64encodeBytes ("none:p:qr".data.map Char.toNat)) = some "none:p:qr".data ∧
    (parseShadowsocksLink ssLinkC7).map ParsedLink.password = some (some "p".data) ∧
    some "p".data ≠ some "p:qr".data := by
  exact ⟨by decide, by decide, by decide⟩

/-- C7 (amended): for an `ss://` URI whose userinfo decodes to
`cipher ++ ":" ++ password` (no colon in the cipher), the parser returns
`cipher` and, as password, only the part of `password` before its first
colon (the whole `password` when it has none); `tls` is `true` iff the
`plugin` parameter is present and contains `"tls"`, and `network` is
`'ws'` iff it is present and contains `"websocket"`, else `'tcp'`. -/
theorem parseShadowsocksLink_amended_C7 (link : JStr) (url : URLModel)
    (userInfo : JStr) (p : ParsedLink) (cipher password : JStr)
    (hu : parseURL link = some url)
    (hatob : atobJS url.username = some userInfo)
    (hui : userInfo = cipher ++ ":".data ++ password)
    (hc : ':' ∉ cipher)
    (hp : parseShadowsocksLink link = some p) :
    p.cipher = cipher ∧
    p.password = some (match splitFirst ':' password with
                       | some (a, _) => a
                       | none => password) ∧
    (p.tls = true ↔ ∃ pl, searchGet url "plugin".data = some pl ∧
        containsSub pl "tls".data = true) ∧
    (p.network = "ws".data ↔ ∃ pl, searchGet url "plugin".data = some pl ∧
        containsSub pl "websocket".data = true) ∧
    (p.network = "ws".data ∨ p.network = "tcp".data) := by
  unfold parseShadowsocksLink at hp
  rw [hu] at hp
  simp only [Option.bind] at hp
  rw [hatob, Option.map_some'] at hp
  have hpe := (Option.some.inj hp).symm
  have hui' : userInfo = cipher ++ ':' :: password := by simpa using hui
  have hsplit : splitAllOn ':' userInfo = cipher :: splitAllOn ':' password := by
    rw [hui']; exact splitAllOn_append_cons ':' cipher password hc
  subst hpe
  refine ⟨?_, ?_, ?_, ?_, ?_⟩
  · simp [hsplit]
  · simp only [hsplit]
    rw [splitAllOn_eq_splitFirst ':' password]
    rcases hsp : splitFirst ':' password with _ | ⟨a, b⟩ <;> simp [hsp]
  · rcases hg : searchGet url "plugin".data with _ | pl <;> simp [hg]
  · rcases hg : searchGet url "plugin".data with _ | pl
    · simp [hg]
    · by_cases hws : containsSub pl "websocket".data = true <;> simp [hg, hws]
  · rcases hg : searchGet url "plugin".data with _ | pl
    · simp [hg]
    · by_cases hws : containsSub pl "websocket".data = true <;> simp [hg, hws]

/-- Witness for C7 on the concrete link `ssLinkC7`. -/
theorem parseShadowsocksLink_amended_C7_witness :
    (parseShadowsocksLink ssLinkC7).map ParsedLink.cipher = some "none".data ∧
    (parseShadowsocksLink ssLinkC7).map ParsedLink.tls = some true ∧
    (parseShadowsocksLink ssLinkC7).map ParsedLink.network = some "ws".data := by
  obtain ⟨p, hp⟩ : ∃ p, parseShadowsocksLink ssLinkC7 = some p := ⟨_, rfl⟩
  have h := parseShadowsocksLink_amended_C7 ssLinkC7
    { scheme := "ss".data
      username := b64encodeBytes ("none:p:qr".data.map Char.toNat)
      hostname := "h".data, port := some 80
      query := "plugin=tls-websocket".data, hash := [] }
    "none:p:qr".data p "none".data "p:qr".data (by decide) (by decide) (by decide)
    (by decide) hp
  refine ⟨?_, ?_, ?_⟩
  · rw [hp, Option.map_some']
    exact congrArg some h.1
  · rw [hp, Option.map_some']
    exact congrArg some (h.2.2.1.mpr ⟨"tls-websocket".data, by decide, by decide⟩)
  · rw [hp, Option.map_some']
    exact congrArg some (h.2.2.2.1.mpr ⟨"tls-websocket".data, by decide, by decide⟩)

/-! ## Theorems for claim C5 (encoder failure policy) -/

/-- `map` + `filter`-out-a-sentinel as a `filterMap`. -/
theorem filter_ne_map_eq_filterMap {α β : Type} [DecidableEq β] (f : α → β) (bad : β)
    (l : List α) :
    (l.map f).filter (fun s => s ≠ bad) =
      l.filterMap (fun x => if f x = bad then none else some (f x)) := by
  induction l with
  | nil => rfl
  | cons a t ih =>
    by_cases h : f a = bad
    · simp only [List.map_cons, List.filterMap_cons, h, if_pos rfl]
      rw [List.filter_cons_of_neg (by simp)]
      exact ih
    · simp only [List.map_cons, List.filterMap_cons, if_neg h]
      rw [List.filter_cons_of_pos (by simp [h])]
      rw [ih]

set_option maxRecDepth 16384 in
/-- A URI link is empty exactly on an unrecognized protocol tag. -/
theorem v2rayLinkOf_empty_iff (i : Nat) (c : ConfigEntry) :
    v2rayLinkOf i c = [] ↔ knownProto c.protocol = false := by
  unfold v2rayLinkOf knownProto
  by_cases h1 : c.protocol = "vmess".data
  · simp [h1]
  · by_cases h2 : c.protocol = "vless".data
    · simp [h1, h2, vlessUri]
    · by_cases h3 : c.protocol = "trojan".data
      · simp [h1, h2, h3]
      · by_cases h4 : c.protocol = "shadowsocks".data <;> simp [h1, h2, h3, h4]

set_option maxRecDepth 16384 in
/-- A Clash YAML block is empty exactly on an unrecognized protocol tag. -/
theorem clashEntryOf_empty_iff (i : Nat) (c : ConfigEntry) :
    clashEntryOf i c = [] ↔ knownProto c.protocol = false := by
  unfold clashEntryOf knownProto
  by_cases h1 : c.protocol = "vmess".data
  · simp [h1, clashProxyDetails]
  · by_cases h2 : c.protocol = "vless".data
    · simp [h1, h2, clashProxyDetails]
    · by_cases h3 : c.protocol = "trojan".data
      · simp [h1, h2, h3, clashProxyDetails]
      · by_cases h4 : c.protocol = "shadowsocks".data <;> simp [h1, h2, h3, h4]

set_option maxRecDepth 16384 in
/-- A Nekobox outbound is produced exactly for a recognized protocol tag. -/
theorem nekoOutboundOf_isSome (i : Nat) (c : ConfigEntry) :
    (nekoOutboundOf i c).isSome = knownProto c.protocol := by
  unfold nekoOutboundOf knownProto
  by_cases h1 : c.protocol = "vmess".data
  · simp [h1]
  · by_cases h2 : c.protocol = "vless".data
    · simp [h1, h2]
    · by_cases h3 : c.protocol = "trojan".data
      · simp [h1, h2, h3]
      · by_cases h4 : c.protocol = "shadowsocks".data <;> simp [h1, h2, h3, h4]

/-- C5: each encoder drops exactly the entries with an unrecognized
protocol tag and emits all others (the encoders are total functions — the
JS `switch` `default` arms return `''`/`null`, nothing throws), and an
empty entry list yields the empty string (URI encoder), the bare header
(Clash), and the fixed document skeleton with no proxy outbounds
(Nekobox). -/
theorem encoders_skip_unknown_C5 (configs : List ConfigEntry) (now : JStr) :
    generateV2rayLinks configs =
      List.intercalate "\n".data
        (configs.enum.filterMap (fun ic =>
          if knownProto ic.2.protocol then some (v2rayLinkOf ic.1 ic.2) else none)) ∧
    generateClashConfig now configs =
      clashHeader now ++
        (configs.enum.filterMap (fun ic =>
          if knownProto ic.2.protocol then some (clashEntryOf ic.1 ic.2) else none)).flatten ∧
    nekoboxOutbounds configs =
      configs.enum.filterMap (fun ic => nekoOutboundOf ic.1 ic.2) ∧
    (∀ (i : Nat) (c : ConfigEntry), (nekoOutboundOf i c).isSome = knownProto c.protocol) ∧
    generateV2rayLinks [] = [] ∧
    generateClashConfig now [] = clashHeader now ∧
    generateNekoboxConfig [] = jsonStringify (nekoboxJson []) ∧
    nekoboxOutbounds [] = [] := by
  have hpt : ∀ (g : Nat × ConfigEntry → JStr)
      (hg : ∀ ic : Nat × ConfigEntry, g ic = [] ↔ knownProto ic.2.protocol = false),
      ∀ ic : Nat × ConfigEntry,
        (if g ic = [] then none else some (g ic)) =
          (if knownProto ic.2.protocol then some (g ic) else none) := by
    intro g hg ic
    cases h : knownProto ic.2.protocol with
    | false => simp [h, (hg ic).mpr h]
    | true =>
      have hne : ¬g ic = [] := fun he => by
        have := (hg ic).mp he; rw [h] at this; exact absurd this (by decide)
      simp [h, hne]
  refine ⟨?_, ?_, ?_, nekoOutboundOf_isSome, rfl, by simp [generateClashConfig], rfl, rfl⟩
  · unfold generateV2rayLinks
    rw [filter_ne_map_eq_filterMap]
    exact congrArg _ (List.filterMap_congr (fun ic _ =>
      hpt (fun ic => v2rayLinkOf ic.1 ic.2)
        (fun ic => v2rayLinkOf_empty_iff ic.1 ic.2) ic))
  · unfold generateClashConfig
    rw [filter_ne_map_eq_filterMap]
    exact congrArg _ (congrArg _ (List.filterMap_congr (fun ic _ =>
      hpt (fun ic => clashEntryOf ic.1 ic.2)
        (fun ic => clashEntryOf_empty_iff ic.1 ic.2) ic)))
  · unfold nekoboxOutbounds
    rw [List.filterMap_map]
    rfl

/-! ## Lemma stack for claim C2: digits and character classes -/

/-- Facts about decimal digit characters, by evaluation. -/
theorem digitCharOf_digit_facts : ∀ d : Fin 10,
    (digitCharOf d.val).toNat = 48 + d.val ∧ uriPlainChar (digitCharOf d.val) = true ∧
    isDigitC (digitCharOf d.val) = true := by decide

/-- Facts about hex digit characters, by evaluation. -/
theorem hexCharOf_facts : ∀ d : Fin 16,
    hexValC (digitCharOf d.val) = d.val ∧ isHexC (digitCharOf d.val) = true ∧
    encOutChar (digitCharOf d.val) = true := by decide

/-- Reading back the digits `natToCharsAux` accumulates. -/
theorem natToCharsAux_foldl (fuel : Nat) : ∀ n acc, n ≤ fuel →
    List.foldl (fun a c => 10 * a + (c.toNat - 48)) 0 (natToCharsAux fuel n acc) =
      List.foldl (fun a c => 10 * a + (c.toNat - 48)) n acc := by
  induction fuel with
  | zero =>
    intro n acc h
    have hn : n = 0 := Nat.le_zero.mp h
    subst hn
    rfl
  | succ fuel ih =>
    intro n acc h
    match n with
    | 0 => rfl
    | m + 1 =>
      show List.foldl _ 0
          (natToCharsAux fuel ((m + 1) / 10) (digitCharOf ((m + 1) % 10) :: acc)) = _
      rw [ih ((m + 1) / 10) _ (by omega), List.foldl_cons]
      congr 1
      have hd := (digitCharOf_digit_facts ⟨(m + 1) % 10, by omega⟩).1
      simp only at hd
      rw [hd]
      omega

/-- `parseInt` inverts the number-to-string model. -/
theorem parseDigits_natToChars (n : Nat) : parseDigits (natToChars n) = n := by
  unfold natToChars parseDigits
  by_cases h : n = 0
  · subst h; simp
  · rw [if_neg h]
    simpa using natToCharsAux_foldl n n [] (Nat.le_refl n)

/-- Every character `natToCharsAux` emits satisfies a property enjoyed by
the digit characters and the accumulator. -/
theorem natToCharsAux_all {P : Char → Bool}
    (hP : ∀ d : Fin 10, P (digitCharOf d.val) = true) (fuel : Nat) :
    ∀ n acc, (∀ c ∈ acc, P c = true) → ∀ c ∈ natToCharsAux fuel n acc, P c = true := by
  induction fuel with
  | zero =>
    intro n acc hacc c hc
    match n with
    | 0 => exact hacc c hc
    | m + 1 => exact hacc c hc
  | succ fuel ih =>
    intro n acc hacc c hc
    match n with
    | 0 => exact hacc c hc
    | m + 1 =>
      refine ih ((m + 1) / 10) (digitCharOf ((m + 1) % 10) :: acc) ?_ c hc
      intro x hx
      rcases List.mem_cons.mp hx with rfl | hx'
      · exact hP ⟨(m + 1) % 10, by omega⟩
      · exact hacc x hx'

/-- Decimal renderings are delimiter-free. -/
theorem natToChars_all_plain (n : Nat) : ∀ c ∈ natToChars n, uriPlainChar c = true := by
  unfold natToChars
  by_cases h : n = 0
  · subst h; intro c hc; simp at hc; subst hc; decide
  · rw [if_neg h]
    exact natToCharsAux_all (fun d => (digitCharOf_digit_facts d).2.1) n n []
      (fun c hc => absurd hc (List.not_mem_nil c))

/-- Decimal renderings consist of digits. -/
theorem natToChars_all_digit (n : Nat) : ∀ c ∈ natToChars n, isDigitC c = true := by
  unfold natToChars
  by_cases h : n = 0
  · subst h; intro c hc; simp at hc; subst hc; decide
  · rw [if_neg h]
    exact natToCharsAux_all (fun d => (digitCharOf_digit_facts d).2.2) n n []
      (fun c hc => absurd hc (List.not_mem_nil c))

/-- `natToCharsAux` preserves a non-empty accumulator. -/
theorem natToCharsAux_ne_nil (fuel : Nat) :
    ∀ n acc, acc ≠ [] → natToCharsAux fuel n acc ≠ [] := by
  induction fuel with
  | zero =>
    intro n acc hacc
    match n with
    | 0 => exact hacc
    | m + 1 => exact hacc
  | succ fuel ih =>
    intro n acc hacc
    match n with
    | 0 => exact hacc
    | m + 1 => exact ih ((m + 1) / 10) _ (by simp)

/-- Decimal renderings are non-empty. -/
theorem natToChars_ne_nil (n : Nat) : natToChars n ≠ [] := by
  unfold natToChars
  by_cases h : n = 0
  · rw [if_pos h]; simp
  · rw [if_neg h]
    match n, h with
    | m + 1, _ => exact natToCharsAux_ne_nil m _ _ (by simp)

/-- Delimiter-free characters are ASCII. -/
theorem uriPlainChar_ascii (c : Char) (h : uriPlainChar c = true) : c.toNat < 0x80 := by
  simp only [uriPlainChar, Bool.or_eq_true, Bool.and_eq_true, decide_eq_true_eq] at h
  omega

/-- A delimiter-free character is none of the URI delimiters. -/
theorem uriPlainChar_ne (c : Char) (h : uriPlainChar c = true) :
    ¬c = ':' ∧ ¬c = '/' ∧ ¬c = '?' ∧ ¬c = '#' ∧ ¬c = '@' ∧ ¬c = '&' ∧ ¬c = '=' ∧
      ¬c = '%' ∧ ¬c = '+' :=
  ⟨fun he => by subst he; exact absurd h (by decide),
   fun he => by subst he; exact absurd h (by decide),
   fun he => by subst he; exact absurd h (by decide),
   fun he => by subst he; exact absurd h (by decide),
   fun he => by subst he; exact absurd h (by decide),
   fun he => by subst he; exact absurd h (by decide),
   fun he => by subst he; exact absurd h (by decide),
   fun he => by subst he; exact absurd h (by decide),
   fun he => by subst he; exact absurd h (by decide)⟩

/-- A character whose class test fails is not in an all-class string. -/
theorem all_not_mem {P : Char → Bool} (s : JStr) (hs : s.all P = true) (c : Char)
    (hc : P c = false) : c ∉ s := fun hm => by
  have := List.all_eq_true.mp hs c hm
  rw [hc] at this
  exact absurd this (by decide)

/-- Non-membership distributes over append. -/
theorem nm_app {c : Char} {l1 l2 : JStr} (h1 : c ∉ l1) (h2 : c ∉ l2) : c ∉ l1 ++ l2 :=
  fun hm => (List.mem_append.mp hm).elim h1 h2

/-! ## Lemma stack for claim C2: UTF-8 round trip -/

/-- The valid scalar-value ranges of a `Char`. -/
theorem char_valid_ranges (c : Char) :
    c.toNat < 0xD800 ∨ (0xE000 ≤ c.toNat ∧ c.toNat < 0x110000) := by
  have he : c.toNat = c.val.toNat := rfl
  rcases c.valid with h | ⟨h1, h2⟩
  · exact Or.inl (by rw [he]; exact h)
  · exact Or.inr ⟨by rw [he]; omega, by rw [he]; exact h2⟩

/-- UTF-8 code units are bytes. -/
theorem utf8EncodeChar_lt256 (c : Char) : ∀ b ∈ utf8EncodeChar c, b < 256 := by
  have hv := char_valid_ranges c
  unfold utf8EncodeChar
  by_cases h1 : c.toNat < 0x80
  · rw [if_pos h1]; intro b hb; simp at hb; omega
  · by_cases h2 : c.toNat < 0x800
    · rw [if_neg h1, if_pos h2]; intro b hb; simp at hb
      rcases hb with rfl | rfl <;> omega
    · by_cases h3 : c.toNat < 0x10000
      · rw [if_neg h1, if_neg h2, if_pos h3]; intro b hb; simp at hb
        rcases hb with rfl | rfl | rfl <;> omega
      · rw [if_neg h1, if_neg h2, if_neg h3]; intro b hb; simp at hb
        rcases hb with rfl | rfl | rfl | rfl <;> omega

/-- Decoder step: ASCII byte. -/
theorem utf8DecodeSt_ascii (b : Nat) (bs : List Nat) (h : b < 0x80) :
    utf8DecodeSt none (b :: bs) =
      (utf8DecodeSt none bs).map (fun r => Char.ofNat b :: r) := by
  rw [utf8DecodeSt, if_pos h]

/-- Decoder step: two-byte lead. -/
theorem utf8DecodeSt_lead2 (b : Nat) (bs : List Nat) (h1 : 0xC0 ≤ b) (h2 : b < 0xE0) :
    utf8DecodeSt none (b :: bs) = utf8DecodeSt (some (b - 0xC0, 1)) bs := by
  rw [utf8DecodeSt, if_neg (by omega), if_neg (by omega), if_pos h2]

/-- Decoder step: three-byte lead. -/
theorem utf8DecodeSt_lead3 (b : Nat) (bs : List Nat) (h1 : 0xE0 ≤ b) (h2 : b < 0xF0) :
    utf8DecodeSt none (b :: bs) = utf8DecodeSt (some (b - 0xE0, 2)) bs := by
  rw [utf8DecodeSt, if_neg (by omega), if_neg (by omega), if_neg (by omega), if_pos h2]

/-- Decoder step: four-byte lead. -/
theorem utf8DecodeSt_lead4 (b : Nat) (bs : List Nat) (h1 : 0xF0 ≤ b) (h2 : b < 0xF8) :
    utf8DecodeSt none (b :: bs) = utf8DecodeSt (some (b - 0xF0, 3)) bs := by
  rw [utf8DecodeSt, if_neg (by omega), if_neg (by omega), if_neg (by omega),
    if_neg (by omega), if_pos h2]

/-- Decoder step: final continuation byte. -/
theorem utf8DecodeSt_cont1 (v b : Nat) (bs : List Nat) (h : 0x80 ≤ b ∧ b < 0xC0) :
    utf8DecodeSt (some (v, 1)) (b :: bs) =
      (utf8DecodeSt none bs).map (fun r => Char.ofNat (v * 64 + (b - 0x80)) :: r) := by
  rw [utf8DecodeSt,
    if_pos (show (0x80 ≤ b && b < 0xC0) = true by
      simp only [Bool.and_eq_true, decide_eq_true_eq]; omega),
    if_pos rfl]

/-- Decoder step: non-final continuation byte. -/
theorem utf8DecodeSt_contk (v k b : Nat) (bs : List Nat) (h : 0x80 ≤ b ∧ b < 0xC0)
    (hk : ¬k = 1) :
    utf8DecodeSt (some (v, k)) (b :: bs) =
      utf8DecodeSt (some (v * 64 + (b - 0x80), k - 1)) bs := by
  rw [utf8DecodeSt,
    if_pos (show (0x80 ≤ b && b < 0xC0) = true by
      simp only [Bool.and_eq_true, decide_eq_true_eq]; omega),
    if_neg hk]

/-- Decoding the UTF-8 bytes of one character prepends that character. -/
theorem utf8Decode_encodeChar (c : Char) (bs : List Nat) :
    utf8Decode (utf8EncodeChar c ++ bs) = (utf8Decode bs).map (fun r => c :: r) := by
  have hv := char_valid_ranges c
  unfold utf8Decode utf8EncodeChar
  by_cases h1 : c.toNat < 0x80
  · rw [if_pos h1]
    show utf8DecodeSt none (c.toNat :: bs) = _
    rw [utf8DecodeSt_ascii _ _ h1]
    simp only [Char.ofNat_toNat]
  · by_cases h2 : c.toNat < 0x800
    · rw [if_neg h1, if_pos h2]
      show utf8DecodeSt none ((0xC0 + c.toNat / 64) :: (0x80 + c.toNat % 64) :: bs) = _
      rw [utf8DecodeSt_lead2 _ _ (by omega) (by omega),
        utf8DecodeSt_cont1 _ _ _ ⟨by omega, by omega⟩]
      have harg : (0xC0 + c.toNat / 64 - 0xC0) * 64 + (0x80 + c.toNat % 64 - 0x80)
          = c.toNat := by omega
      simp only [harg, Char.ofNat_toNat]
    · by_cases h3 : c.toNat < 0x10000
      · rw [if_neg h1, if_neg h2, if_pos h3]
        show utf8DecodeSt none ((0xE0 + c.toNat / 4096) :: (0x80 + c.toNat / 64 % 64)
          :: (0x80 + c.toNat % 64) :: bs) = _
        rw [utf8DecodeSt_lead3 _ _ (by omega) (by omega),
          utf8DecodeSt_contk _ _ _ _ ⟨by omega, by omega⟩ (by omega),
          utf8DecodeSt_cont1 _ _ _ ⟨by omega, by omega⟩]
        have harg : ((0xE0 + c.toNat / 4096 - 0xE0) * 64
            + (0x80 + c.toNat / 64 % 64 - 0x80)) * 64 + (0x80 + c.toNat % 64 - 0x80)
            = c.toNat := by omega
        simp only [harg, Char.ofNat_toNat]
      · rw [if_neg h1, if_neg h2, if_neg h3]
        show utf8DecodeSt none ((0xF0 + c.toNat / 262144) :: (0x80 + c.toNat / 4096 % 64)
          :: (0x80 + c.toNat / 64 % 64) :: (0x80 + c.toNat % 64) :: bs) = _
        rw [utf8DecodeSt_lead4 _ _ (by omega) (by omega),
          utf8DecodeSt_contk _ _ _ _ ⟨by omega, by omega⟩ (by omega),
          utf8DecodeSt_contk _ _ _ _ ⟨by omega, by omega⟩ (by omega),
          utf8DecodeSt_cont1 _ _ _ ⟨by omega, by omega⟩]
        have harg : (((0xF0 + c.toNat / 262144 - 0xF0) * 64
            + (0x80 + c.toNat / 4096 % 64 - 0x80)) * 64
            + (0x80 + c.toNat / 64 % 64 - 0x80)) * 64 + (0x80 + c.toNat % 64 - 0x80)
            = c.toNat := by omega
        simp only [harg, Char.ofNat_toNat]

/-- Decoding the concatenated UTF-8 bytes of a string recovers it. -/
theorem utf8Decode_utf8Bytes (p : JStr) :
    utf8Decode (p.flatMap utf8EncodeChar) = some p := by
  induction p with
  | nil => rfl
  | cons c p' ih =>
    rw [List.flatMap_cons, utf8Decode_encodeChar, ih]
    rfl

/-! ## Lemma stack for claim C2: percent-encoding round trip -/

/-- Unreserved characters are ASCII. -/
theorem unreservedURI_ascii (c : Char) (h : unreservedURI c = true) : c.toNat < 0x80 := by
  simp only [unreservedURI, Bool.or_eq_true, Bool.and_eq_true, decide_eq_true_eq] at h
  omega

/-- Unreserved characters are not `%`. -/
theorem unreservedURI_ne_percent (c : Char) (h : unreservedURI c = true) : ¬c = '%' :=
  fun he => by subst he; exact absurd h (by decide)

/-- An unreserved character UTF-8-encodes to its own code point. -/
theorem unreservedURI_encodeChar (c : Char) (h : unreservedURI c = true) :
    utf8EncodeChar c = [c.toNat] := by
  unfold utf8EncodeChar
  rw [if_pos (unreservedURI_ascii c h)]

/-- Percent-decode step: a byte escape. -/
theorem percentDecodeBytes_esc (b : Nat) (hb : b < 256) (rest : JStr) :
    percentDecodeBytes (byteEsc b ++ rest) =
      (percentDecodeBytes rest).map (fun r => b :: r) := by
  have f1 := hexCharOf_facts ⟨b / 16, by omega⟩
  have f2 := hexCharOf_facts ⟨b % 16, by omega⟩
  simp only at f1 f2
  show percentDecodeBytes ('%' :: digitCharOf (b / 16) :: digitCharOf (b % 16) :: rest) = _
  rw [percentDecodeBytes,
    if_pos (show (isHexC (digitCharOf (b / 16)) && isHexC (digitCharOf (b % 16))) = true by
      rw [f1.2.1, f2.2.1]; rfl)]
  have harg : hexValC (digitCharOf (b / 16)) * 16 + hexValC (digitCharOf (b % 16)) = b := by
    rw [f1.1, f2.1]; omega
  simp only [harg]

/-- Percent-decode step: a literal (non-`%`, byte-sized) character. -/
theorem percentDecodeBytes_plain (c : Char) (hc : ¬c = '%') (hlt : c.toNat < 256)
    (rest : JStr) :
    percentDecodeBytes (c :: rest) =
      (percentDecodeBytes rest).map (fun r => c.toNat :: r) := by
  rcases rest with _ | ⟨d, _ | ⟨e, t⟩⟩ <;> simp [percentDecodeBytes, hc, hlt]

/-- Percent-decoding a run of byte escapes. -/
theorem percentDecodeBytes_escBytes (bs : List Nat) (hbs : ∀ b ∈ bs, b < 256)
    (rest : JStr) :
    percentDecodeBytes (bs.flatMap byteEsc ++ rest) =
      (percentDecodeBytes rest).map (fun r => bs ++ r) := by
  induction bs with
  | nil => rcases h : percentDecodeBytes rest with _ | r <;> simp [h]
  | cons b bs' ih =>
    rw [List.flatMap_cons, List.append_assoc, percentDecodeBytes_esc b (hbs b (by simp)),
      ih (fun x hx => hbs x (by simp [hx]))]
    cases percentDecodeBytes rest <;> simp

/-- Percent-decoding an `encodeURIComponent` image yields the UTF-8 bytes. -/
theorem percentDecodeBytes_encode (p : JStr) (rest : JStr) :
    percentDecodeBytes (encodeURIComponent p ++ rest) =
      (percentDecodeBytes rest).map (fun r => p.flatMap utf8EncodeChar ++ r) := by
  induction p with
  | nil => rcases h : percentDecodeBytes rest with _ | r <;> simp [encodeURIComponent, h]
  | cons c p' ih =>
    simp only [encodeURIComponent, List.flatMap_cons] at ih ⊢
    by_cases hu : unreservedURI c = true
    · rw [if_pos hu]
      rw [List.append_assoc, List.singleton_append,
        percentDecodeBytes_plain c (unreservedURI_ne_percent c hu)
          (by have := unreservedURI_ascii c hu; omega), ih]
      rw [unreservedURI_encodeChar c hu]
      cases percentDecodeBytes rest <;> simp
    · rw [if_neg hu]
      rw [List.append_assoc, percentDecodeBytes_escBytes _ (utf8EncodeChar_lt256 c), ih]
      cases percentDecodeBytes rest <;> simp

/-- `+`-to-space is the identity on strings without `+`. -/
theorem plusToSpace_id (s : JStr) (h : ∀ c ∈ s, ¬c = '+') :
    s.map (fun c => if c = '+' then ' ' else c) = s := by
  induction s with
  | nil => rfl
  | cons c t ih =>
    rw [List.map_cons, if_neg (h c (by simp)), ih (fun x hx => h x (by simp [hx]))]

/-- Everything `encodeURIComponent` emits is unreserved, `%`, or hex. -/
theorem encodeURIComponent_all_encOut (p : JStr) :
    ∀ c ∈ encodeURIComponent p, encOutChar c = true := by
  intro c hc
  unfold encodeURIComponent at hc
  rcases List.mem_flatMap.mp hc with ⟨x, hx, hcx⟩
  by_cases hu : unreservedURI x = true
  · rw [if_pos hu] at hcx
    simp at hcx
    subst hcx
    simp [encOutChar, hu]
  · rw [if_neg hu] at hcx
    rcases List.mem_flatMap.mp hcx with ⟨b, hb, hcb⟩
    have hblt := utf8EncodeChar_lt256 x b hb
    have f1 := hexCharOf_facts ⟨b / 16, by omega⟩
    have f2 := hexCharOf_facts ⟨b % 16, by omega⟩
    simp only at f1 f2
    unfold byteEsc at hcb
    simp at hcb
    rcases hcb with rfl | rfl | rfl
    · decide
    · exact f1.2.2
    · exact f2.2.2

/-- Form-decoding inverts `encodeURIComponent` exactly. -/
theorem formDecode_encode (p : JStr) : formDecode (encodeURIComponent p) = p := by
  unfold formDecode
  rw [plusToSpace_id _ (fun c hc he => by
    subst he
    exact absurd (encodeURIComponent_all_encOut p _ hc) (by decide))]
  have h1 : percentDecodeBytes (encodeURIComponent p) = some (p.flatMap utf8EncodeChar) := by
    have := percentDecodeBytes_encode p []
    simpa [percentDecodeBytes] using this
  rw [h1, show (some (p.flatMap utf8EncodeChar)).bind utf8Decode
      = utf8Decode (p.flatMap utf8EncodeChar) from rfl,
    utf8Decode_utf8Bytes]

/-- Percent-decoding is transparent on delimiter-free strings. -/
theorem percentDecodeBytes_all_plain (s : JStr) (hs : s.all uriPlainChar = true) :
    percentDecodeBytes s = some (s.map Char.toNat) := by
  induction s with
  | nil => rfl
  | cons c t ih =>
    rw [List.all_cons, Bool.and_eq_true] at hs
    rw [percentDecodeBytes_plain c ((uriPlainChar_ne c hs.1).2.2.2.2.2.2.2.1)
      (by have := uriPlainChar_ascii c hs.1; omega), ih hs.2]
    rfl

/-- UTF-8 decoding is transparent on ASCII code points. -/
theorem utf8Decode_ascii_map (s : JStr) (h : ∀ c ∈ s, c.toNat < 0x80) :
    utf8Decode (s.map Char.toNat) = some s := by
  induction s with
  | nil => rfl
  | cons c t ih =>
    show utf8DecodeSt none (c.toNat :: t.map Char.toNat) = _
    rw [utf8DecodeSt_ascii _ _ (h c (by simp))]
    have : utf8Decode (t.map Char.toNat) = some t := ih (fun x hx => h x (by simp [hx]))
    rw [show utf8DecodeSt none (t.map Char.toNat) = utf8Decode (t.map Char.toNat) from rfl,
      this]
    simp [Char.ofNat_toNat]

/-- Form-decoding is the identity on delimiter-free strings. -/
theorem formDecode_plain (s : JStr) (hs : s.all uriPlainChar = true) :
    formDecode s = s := by
  unfold formDecode
  rw [plusToSpace_id _ (fun c hc =>
    (uriPlainChar_ne c (List.all_eq_true.mp hs c hc)).2.2.2.2.2.2.2.2)]
  rw [percentDecodeBytes_all_plain s hs,
    show (some (s.map Char.toNat)).bind utf8Decode = utf8Decode (s.map Char.toNat) from rfl,
    utf8Decode_ascii_map s (fun c hc =>
      uriPlainChar_ascii c (List.all_eq_true.mp hs c hc))]

/-! ## Lemma stack for claim C2: parsing the generated link -/

/-- `x || ""` is `x`. -/
theorem jsOrS_nil (x : JStr) : jsOrS x [] = x := by
  unfold jsOrS
  by_cases h : x = [] <;> simp [h]

/-- Digits are delimiter-free. -/
theorem isDigitC_plain (c : Char) (h : isDigitC c = true) : uriPlainChar c = true := by
  simp only [isDigitC, Bool.and_eq_true, decide_eq_true_eq] at h
  simp only [uriPlainChar, Bool.or_eq_true, Bool.and_eq_true, decide_eq_true_eq]
  omega

/-- `parseURL` on a well-shaped `scheme://user@host:port?query#frag`
input. -/
theorem parseURL_shape (scheme userinfo hostS portS query frag : JStr)
    (hsch : ':' ∉ scheme)
    (huser : userinfo.all uriPlainChar = true)
    (hhost : hostS.all uriPlainChar = true) (hh0 : hostS ≠ [])
    (hport : portS.all isDigitC = true) (hp0 : portS ≠ [])
    (hpv : parseDigits portS < 65536)
    (hq : '#' ∉ query ∧ '?' ∉ query ∧ '/' ∉ query ∧ '@' ∉ query) :
    parseURL (scheme ++ ':' :: '/' :: '/'
        :: (userinfo ++ '@' :: (hostS ++ ':' :: (portS ++ '?' :: (query ++ '#' :: frag))))) =
      some { scheme := scheme, username := userinfo, hostname := hostS
             port := some (parseDigits portS), query := query, hash := '#' :: frag } := by
  have hportPlain : portS.all uriPlainChar = true := by
    rw [List.all_eq_true] at hport ⊢
    exact fun c hc => isDigitC_plain c (hport c hc)
  have nmUser : ∀ d : Char, uriPlainChar d = false → d ∉ userinfo :=
    fun d hd => all_not_mem userinfo huser d hd
  have nmHost : ∀ d : Char, uriPlainChar d = false → d ∉ hostS :=
    fun d hd => all_not_mem hostS hhost d hd
  have nmPort : ∀ d : Char, uriPlainChar d = false → d ∉ portS :=
    fun d hd => all_not_mem portS hportPlain d hd
  unfold parseURL
  rw [splitFirst_append_cons ':' scheme _ hsch]
  dsimp only
  rw [if_pos (show ("//".data.isPrefixOf ('/' :: '/'
    :: (userinfo ++ '@' :: (hostS ++ ':' :: (portS ++ '?' :: (query ++ '#' :: frag)))))) = true
    by simp [List.isPrefixOf])]
  have hdrop : ('/' :: '/'
      :: (userinfo ++ '@' :: (hostS ++ ':' :: (portS ++ '?' :: (query ++ '#' :: frag))))).drop 2
      = userinfo ++ '@' :: (hostS ++ ':' :: (portS ++ '?' :: (query ++ '#' :: frag))) := rfl
  rw [hdrop]
  have hHash : splitFirst '#'
      (userinfo ++ '@' :: (hostS ++ ':' :: (portS ++ '?' :: (query ++ '#' :: frag))))
      = some ((userinfo ++ '@' :: (hostS ++ ':' :: (portS ++ '?' :: query))), frag) := by
    have hshape : userinfo ++ '@' :: (hostS ++ ':' :: (portS ++ '?' :: (query ++ '#' :: frag)))
        = (userinfo ++ '@' :: (hostS ++ ':' :: (portS ++ '?' :: query))) ++ '#' :: frag := by
      simp only [List.append_assoc, List.cons_append]
    rw [hshape]
    exact splitFirst_append_cons '#' _ _
      (nm_app (nmUser '#' (by decide))
        (List.not_mem_cons_of_ne_of_not_mem (by decide)
          (nm_app (nmHost '#' (by decide))
            (List.not_mem_cons_of_ne_of_not_mem (by decide)
              (nm_app (nmPort '#' (by decide))
                (List.not_mem_cons_of_ne_of_not_mem (by decide) hq.1))))))
  rw [hHash]
  dsimp only
  have hQuery : splitFirst '?' (userinfo ++ '@' :: (hostS ++ ':' :: (portS ++ '?' :: query)))
      = some ((userinfo ++ '@' :: (hostS ++ ':' :: portS)), query) := by
    have hshape : userinfo ++ '@' :: (hostS ++ ':' :: (portS ++ '?' :: query))
        = (userinfo ++ '@' :: (hostS ++ ':' :: portS)) ++ '?' :: query := by
      simp only [List.append_assoc, List.cons_append]
    rw [hshape]
    exact splitFirst_append_cons '?' _ _
      (nm_app (nmUser '?' (by decide))
        (List.not_mem_cons_of_ne_of_not_mem (by decide)
          (nm_app (nmHost '?' (by decide))
            (List.not_mem_cons_of_ne_of_not_mem (by decide) (nmPort '?' (by decide))))))
  rw [hQuery]
  dsimp only
  have hSlash : splitFirst '/' (userinfo ++ '@' :: (hostS ++ ':' :: portS)) = none := by
    exact splitFirst_eq_none '/' _
      (nm_app (nmUser '/' (by decide))
        (List.not_mem_cons_of_ne_of_not_mem (by decide)
          (nm_app (nmHost '/' (by decide))
            (List.not_mem_cons_of_ne_of_not_mem (by decide) (nmPort '/' (by decide))))))
  rw [hSlash]
  dsimp only
  have hAt : splitLast '@' (userinfo ++ '@' :: (hostS ++ ':' :: portS))
      = some (userinfo, hostS ++ ':' :: portS) := by
    exact splitLast_append_cons '@' _ _
      (nm_app (nmHost '@' (by decide))
        (List.not_mem_cons_of_ne_of_not_mem (by decide) (nmPort '@' (by decide))))
  rw [hAt]
  dsimp only
  rw [splitFirst_eq_none ':' userinfo (nmUser ':' (by decide))]
  dsimp only
  have hColon : splitLast ':' (hostS ++ ':' :: portS) = some (hostS, portS) :=
    splitLast_append_cons ':' _ _ (nmPort ':' (by decide))
  rw [hColon]
  dsimp only
  rw [if_neg hp0,
    if_pos (show (portS.all isDigitC && parseDigits portS < 65536) = true by
      rw [hport]
      simp [hpv])]
  dsimp only
  rw [if_neg hh0]

/-- The six key-value pairs of a generated vless query. -/
theorem queryPairs_vlessQuery (sec host E sni : JStr)
    (hsec : '&' ∉ sec) (hh : '&' ∉ host) (hE : '&' ∉ E) (hsni : '&' ∉ sni) :
    queryPairs (vlessQuery sec host E sni) =
      [("encryption".data, "none".data), ("security".data, sec),
       ("type".data, "ws".data), ("host".data, host), ("path".data, E),
       ("sni".data, sni)] := by
  have hQ : vlessQuery sec host E sni =
      "encryption=none".data ++ '&' :: (("security=".data ++ sec)
        ++ '&' :: ("type=ws".data ++ '&' :: (("host=".data ++ host)
          ++ '&' :: (("path=".data ++ E) ++ '&' :: ("sni=".data ++ sni))))) := by
    simp only [vlessQuery, List.append_assoc, List.cons_append, List.nil_append]
  unfold queryPairs
  rw [hQ, splitAllOn_append_cons '&' _ _ (by decide),
    splitAllOn_append_cons '&' _ _ (nm_app (by decide) hsec),
    splitAllOn_append_cons '&' _ _ (by decide),
    splitAllOn_append_cons '&' _ _ (nm_app (by decide) hh),
    splitAllOn_append_cons '&' _ _ (nm_app (by decide) hE),
    splitAllOn_no_occ '&' _ (nm_app (by decide) hsni)]
  have hne2 : ¬("security=".data ++ sec) = [] :=
    fun h => absurd (List.append_eq_nil.mp h).1 (by decide)
  have hne4 : ¬("host=".data ++ host) = [] :=
    fun h => absurd (List.append_eq_nil.mp h).1 (by decide)
  have hne5 : ¬("path=".data ++ E) = [] :=
    fun h => absurd (List.append_eq_nil.mp h).1 (by decide)
  have hne6 : ¬("sni=".data ++ sni) = [] :=
    fun h => absurd (List.append_eq_nil.mp h).1 (by decide)
  simp [List.filter, List.map, splitFirst, hne2, hne4, hne5, hne6]

/-- Reading the five parameters the vless parser consults out of a
generated query. -/
theorem searchGet_vlessQuery (u : URLModel) (sec host E sni : JStr)
    (hq : queryPairs u.query =
      [("encryption".data, "none".data), ("security".data, sec),
       ("type".data, "ws".data), ("host".data, host), ("path".data, E),
       ("sni".data, sni)]) :
    searchGet u "security".data = some (formDecode sec) ∧
    searchGet u "type".data = some (formDecode "ws".data) ∧
    searchGet u "host".data = some (formDecode host) ∧
    searchGet u "path".data = some (formDecode E) ∧
    searchGet u "sni".data = some (formDecode sni) := by
  unfold searchGet
  rw [hq]
  refine ⟨?_, ?_, ?_, ?_, ?_⟩ <;>
    simp [List.find?,
      show formDecode "encryption".data = "encryption".data from by decide,
      show formDecode "security".data = "security".data from by decide,
      show formDecode "type".data = "type".data from by decide,
      show formDecode "host".data = "host".data from by decide,
      show formDecode "path".data = "path".data from by decide,
      show formDecode "sni".data = "sni".data from by decide]

/-- C2 (amended): round trip of the vless URI encoder through the link
parser.  For delimiter-free `uuid`, `server`, `host`, `sni` (and the
display name URI-encoded, as the encoder always does), with a non-empty
server, a valid port, a NON-EMPTY path and a NON-EMPTY sni — the two
non-emptiness conditions are what the counterexample forces — the
generated link parses successfully, and parsing recovers `uuid`, `server`
(as hostname), `port`, `host` (as `wsHost`), `path` (URL-decoded back
exactly) and `sni`. -/
theorem vless_roundtrip_amended_C2 (uuid server : JStr) (port : Nat) (isTls : Bool)
    (host path sni name0 : JStr)
    (hu : uuid.all uriPlainChar = true) (hsv : server.all uriPlainChar = true)
    (hsv0 : server ≠ []) (hh : host.all uriPlainChar = true)
    (hsn : sni.all uriPlainChar = true) (hsn0 : sni ≠ []) (hp0 : path ≠ [])
    (hport : port < 65536) :
    (∃ q, parseVlessLink (vlessUri uuid server port isTls host path sni
      (encodeURIComponent name0)) = some q) ∧
    ∀ p, parseVlessLink (vlessUri uuid server port isTls host path sni
        (encodeURIComponent name0)) = some p →
      p.uuid = uuid ∧ p.server = server ∧ p.port = some port ∧ p.wsHost = host ∧
      p.wsPath = path ∧ p.sni = sni := by
  have hsecAll : (if isTls then "tls".data else "none".data).all uriPlainChar = true := by
    cases isTls <;> decide
  have hEall : (encodeURIComponent path).all encOutChar = true :=
    List.all_eq_true.mpr (encodeURIComponent_all_encOut path)
  have hQnm : ∀ d : Char, d ∉ "encryption=none&security=".data →
      d ∉ (if isTls then "tls".data else "none".data) → d ∉ "&type=ws&host=".data →
      d ∉ host → d ∉ "&path=".data → d ∉ encodeURIComponent path →
      d ∉ "&sni=".data → d ∉ sni →
      d ∉ vlessQuery (if isTls then "tls".data else "none".data) host
        (encodeURIComponent path) sni := by
    intro d h1 h2 h3 h4 h5 h6 h7 h8
    unfold vlessQuery
    exact nm_app (nm_app (nm_app (nm_app (nm_app (nm_app (nm_app h1 h2) h3) h4) h5) h6) h7) h8
  have hL : vlessUri uuid server port isTls host path sni (encodeURIComponent name0) =
      "vless".data ++ ':' :: '/' :: '/'
        :: (uuid ++ '@' :: (server ++ ':' :: (natToChars port ++ '?'
          :: (vlessQuery (if isTls then "tls".data else "none".data) host
                (encodeURIComponent path) sni ++ '#' :: encodeURIComponent name0)))) := by
    simp only [vlessUri, vlessQuery, List.append_assoc, List.cons_append, List.nil_append]
  have hurl := parseURL_shape "vless".data uuid server (natToChars port)
    (vlessQuery (if isTls then "tls".data else "none".data) host
      (encodeURIComponent path) sni)
    (encodeURIComponent name0) (by decide) hu hsv hsv0
    (List.all_eq_true.mpr (natToChars_all_digit port)) (natToChars_ne_nil port)
    (by rw [parseDigits_natToChars]; exact hport)
    ⟨hQnm '#' (by decide) (all_not_mem _ hsecAll _ (by decide)) (by decide)
        (all_not_mem _ hh _ (by decide)) (by decide) (all_not_mem _ hEall _ (by decide))
        (by decide) (all_not_mem _ hsn _ (by decide)),
      hQnm '?' (by decide) (all_not_mem _ hsecAll _ (by decide)) (by decide)
        (all_not_mem _ hh _ (by decide)) (by decide) (all_not_mem _ hEall _ (by decide))
        (by decide) (all_not_mem _ hsn _ (by decide)),
      hQnm '/' (by decide) (all_not_mem _ hsecAll _ (by decide)) (by decide)
        (all_not_mem _ hh _ (by decide)) (by decide) (all_not_mem _ hEall _ (by decide))
        (by decide) (all_not_mem _ hsn _ (by decide)),
      hQnm '@' (by decide) (all_not_mem _ hsecAll _ (by decide)) (by decide)
        (all_not_mem _ hh _ (by decide)) (by decide) (all_not_mem _ hEall _ (by decide))
        (by decide) (all_not_mem _ hsn _ (by decide))⟩
  rw [parseDigits_natToChars] at hurl
  have hsg := searchGet_vlessQuery
    { scheme := "vless".data, username := uuid, hostname := server, port := some port
      query := vlessQuery (if isTls then "tls".data else "none".data) host
        (encodeURIComponent path) sni
      hash := '#' :: encodeURIComponent name0 }
    (if isTls then "tls".data else "none".data) host (encodeURIComponent path) sni
    (queryPairs_vlessQuery _ _ _ _ (all_not_mem _ hsecAll _ (by decide))
      (all_not_mem _ hh _ (by decide)) (all_not_mem _ hEall _ (by decide))
      (all_not_mem _ hsn _ (by decide)))
  constructor
  · unfold parseVlessLink
    rw [hL, hurl, Option.map_some']
    exact ⟨_, rfl⟩
  · intro p hp
    unfold parseVlessLink at hp
    rw [hL, hurl, Option.map_some'] at hp
    have hpe := (Option.some.inj hp).symm
    subst hpe
    refine ⟨rfl, rfl, rfl, ?_, ?_, ?_⟩
    · dsimp only
      rw [hsg.2.2.1]
      show jsOrS (formDecode host) [] = host
      rw [jsOrS_nil, formDecode_plain host hh]
    · dsimp only
      rw [hsg.2.2.2.1]
      show jsOrS (formDecode (encodeURIComponent path)) "/".data = path
      rw [formDecode_encode]
      unfold jsOrS
      rw [if_neg hp0]
    · dsimp only
      rw [hsg.2.2.2.2]
      show jsOrS (formDecode sni) _ = sni
      rw [formDecode_plain sni hsn]
      unfold jsOrS
      rw [if_neg hsn0]

/-- C2 counterexample: with an empty path the parser substitutes `"/"`
(`get("path") || "/"`), and with an empty sni it falls back to the `host`
parameter (`get("sni") || get("host") || hostname`), so the parse does
not recover the original empty values and the claim as stated fails. -/
theorem vless_roundtrip_counterexample_C2 :
    (parseVlessLink (vlessUri "u".data "h".data 443 true "hh".data [] []
        (encodeURIComponent "nm".data))).map ParsedLink.wsPath = some "/".data ∧
    (parseVlessLink (vlessUri "u".data "h".data 443 true "hh".data [] []
        (encodeURIComponent "nm".data))).map ParsedLink.sni = some "hh".data ∧
    ¬"/".data = ([] : JStr) ∧ ¬"hh".data = ([] : JStr) :=
  ⟨by decide, by decide, by decide, by decide⟩

/-- Witness for C2 at the worked scenario of the spec. -/
theorem vless_roundtrip_amended_C2_witness :
    ∃ p, parseVlessLink (vlessUri "u-1".data "x.example".data 443 true "x.example".data
        "/afrcloud/1.2.3.4-443".data "x.example".data
        (encodeURIComponent "[1] (SG) Acme [VLESS-TLS]".data)) = some p ∧
      p.uuid = "u-1".data ∧ p.server = "x.example".data ∧ p.port = some 443 ∧
      p.wsHost = "x.example".data ∧ p.wsPath = "/afrcloud/1.2.3.4-443".data ∧
      p.sni = "x.example".data := by
  have h := vless_roundtrip_amended_C2 "u-1".data "x.example".data 443 true
    "x.example".data "/afrcloud/1.2.3.4-443".data "x.example".data
    "[1] (SG) Acme [VLESS-TLS]".data
    (by decide) (by decide) (by decide) (by decide) (by decide) (by decide) (by decide)
    (by decide)
  obtain ⟨⟨q, hq⟩, hchar⟩ := h
  exact ⟨q, hq, hchar q hq⟩
